import Mathlib

/-!
Verification of the email-verifier backend (Flask + SQLite batch email
verification service) against its natural-language specification.

The Python sources are shallowly embedded: pure functions become Lean
functions; module state (caches, the jobs table, semaphores) is passed
explicitly; wall-clock readings become explicit `Int` parameters; network
calls (DNS resolution, SMTP dialogues) become oracle parameters supplying
the observed answers, and the embedding additionally counts how many such
calls each code path performs so that caching / probe-avoidance claims can
be stated.  Machine floats only occur as timestamps and scores, which the
code merely compares and adds, so `Int` is a faithful carrier.
-/

/-! ## String helpers (Python `in`, `str.split`, `str.lower` analogues) -/

/-- Char-list version of Python `needle in hay` (substring containment):
does `hay` start with `needle`? -/
def seqStartsWith : List Char → List Char → Bool
  | [], _ => true
  | _ :: _, [] => false
  | a :: as, b :: bs => a == b && seqStartsWith as bs

/-- Does `hay` contain `needle` as a contiguous subsequence (Python `needle in hay`)? -/
def seqContains (needle : List Char) : List Char → Bool
  | [] => needle.isEmpty
  | c :: t => seqStartsWith needle (c :: t) || seqContains needle t

/-- Python `needle in hay` for strings. -/
def strContains (hay needle : String) : Bool :=
  seqContains needle.data hay.data

/-- Python `s.startswith(pre)`. -/
def strStartsWith (s pre : String) : Bool :=
  seqStartsWith pre.data s.data

/-- Python `s.split(sep)` for a one-character separator. -/
def splitChar (sep : Char) : List Char → List (List Char)
  | [] => [[]]
  | c :: t =>
    let r := splitChar sep t
    if c == sep then [] :: r
    else (c :: r.headD []) :: r.tail

/-- Python `s.split(sep)` (string result pieces). -/
def pySplit (s : String) (sep : Char) : List String :=
  (splitChar sep s.data).map fun cs => String.mk cs

/-- ASCII lower-casing of one character (the domains the code lower-cases are
ASCII host names). -/
def charLower (c : Char) : Char :=
  if 'A' ≤ c ∧ c ≤ 'Z' then Char.ofNat (c.toNat + 32) else c

/-- Python `s.lower()` (ASCII case folding). -/
def strLower (s : String) : String :=
  String.mk (s.data.map charLower)

/-- Python `email.split("@")[1].lower() if "@" in email else ""`
(the domain extraction used by `calculate_score_and_risks`). -/
def emailDomain (email : String) : String :=
  if email.data.contains '@' then strLower ((pySplit email '@').getD 1 "") else ""

/-! ## Configuration sets (config.py / app.py module constants) -/

/-- `Config.FREE_EMAIL_PROVIDERS` (config.py). -/
def FREE_EMAIL_PROVIDERS : List String :=
  ["gmail.com", "yahoo.com", "outlook.com", "hotmail.com",
   "aol.com", "icloud.com", "live.com", "msn.com"]

/-- `DISPOSABLE_DOMAINS` (app.py). -/
def DISPOSABLE_DOMAINS : List String :=
  ["mailinator.com", "10minutemail.com", "guerrillamail.com"]

/-- `ROLE_BASED_PREFIXES` (app.py). -/
def ROLE_BASED_PREFIXES : List String :=
  ["info", "support", "admin", "sales", "contact"]

/-! ## ScoringEngine: `calculate_score_and_risks` (app.py lines 393-455) -/

/-- Faithful embedding of `calculate_score_and_risks(email, status, reason)`.
The `status` argument is taken (as in the source) but unused, and the
source's `domain` binding is inlined at its single use site.  Deductions are
applied sequentially from a starting score of 100, risk tags are appended in
source order, and the final score is clamped to [0, 100]. -/
def calculate_score_and_risks (email status reason : String) : Int × List String :=
  if reason == "bad_syntax" || reason == "empty_email" then (0, ["invalid_syntax"])
  else if reason == "no_mx" || reason == "no_mx_dns_timeout" then (0, ["no_mail_server"])
  else if strStartsWith reason "smtp_reject" then (0, ["mailbox_not_found"])
  else if reason == "disposable_domain" then (0, ["disposable_provider"])
  else
    let sc : Int := 100
    let rf : List String := []
    let (sc, rf) :=
      if reason == "role_based" then (sc - 25, rf ++ ["role_based_email"]) else (sc, rf)
    let (sc, rf) :=
      if reason == "smtp_timeout" || reason == "timeout_after_retry" then
        (sc - 25, rf ++ ["smtp_unreachable"]) else (sc, rf)
    let (sc, rf) :=
      if reason == "connection_refused" || reason == "connection_reset" then
        (sc - 30, rf ++ ["smtp_connection_failed"]) else (sc, rf)
    let (sc, rf) :=
      if strStartsWith reason "smtp_soft_fail" || strStartsWith reason "temp_fail_" then
        (sc - 25, rf ++ ["temporary_smtp_failure"]) else (sc, rf)
    let (sc, rf) :=
      if strStartsWith reason "smtp_" && !(reason == "smtp_ok" || reason == "smtp_timeout") then
        if !(strContains reason "soft_fail") && !(strContains reason "reject") then
          (sc - 30, rf ++ ["smtp_error"])
        else (sc, rf)
      else (sc, rf)
    let (sc, rf) :=
      if reason == "domain_accepts_all" then (sc - 15, rf ++ ["catch_all_domain"]) else (sc, rf)
    let (sc, rf) :=
      if reason == "mock_risky" then (sc - 40, rf ++ ["unverifiable_domain"]) else (sc, rf)
    let (sc, rf) :=
      if FREE_EMAIL_PROVIDERS.contains (emailDomain email) then
        (sc - 5, rf ++ ["free_email_provider"]) else (sc, rf)
    (max 0 (min 100 sc), rf)

/-! ### Spec-side scoring formula (for comparison with the source function)

The claim describes the scoring function as: hard-zero reasons yield score 0
with a single tag; otherwise the score is 100 minus the *sum* of the
deductions of every matched condition, clamped to [0,100].  The following
definitions are written from that wording (a deduction table that is summed),
not from the source's sequential subtraction, so that proving the two equal
is a genuine refinement check. -/

/-- Hard-zero reasons and their single tag, as enumerated by the claim. -/
def claimHardZeroTag (reason : String) : Option String :=
  if reason == "bad_syntax" || reason == "empty_email" then some "invalid_syntax"
  else if reason == "no_mx" || reason == "no_mx_dns_timeout" then some "no_mail_server"
  else if strStartsWith reason "smtp_reject" then some "mailbox_not_found"
  else if reason == "disposable_domain" then some "disposable_provider"
  else none

/-- The deduction table exactly as the claim enumerates it (role_based 25;
timeout 25; connection refused/reset 30; temporary 4xx 25; other generic SMTP
30; domain_accepts_all 15; free-mail provider 5).  Each matched condition
contributes one (deduction, tag) entry. -/
def claimDeductions (reason domain : String) : List (Int × String) :=
  (if reason == "role_based" then [((25 : Int), "role_based_email")] else []) ++
  (if reason == "smtp_timeout" || reason == "timeout_after_retry" then
    [((25 : Int), "smtp_unreachable")] else []) ++
  (if reason == "connection_refused" || reason == "connection_reset" then
    [((30 : Int), "smtp_connection_failed")] else []) ++
  (if strStartsWith reason "smtp_soft_fail" || strStartsWith reason "temp_fail_" then
    [((25 : Int), "temporary_smtp_failure")] else []) ++
  (if strStartsWith reason "smtp_" && !(reason == "smtp_ok" || reason == "smtp_timeout") then
    (if !(strContains reason "soft_fail") && !(strContains reason "reject") then
      [((30 : Int), "smtp_error")] else [])
   else []) ++
  (if reason == "domain_accepts_all" then [((15 : Int), "catch_all_domain")] else []) ++
  (if FREE_EMAIL_PROVIDERS.contains domain then [((5 : Int), "free_email_provider")] else [])

/-- The claim's scoring formula: 100 minus the sum of matched deductions,
clamped to [0,100], with the matched tags as risk factors. -/
def claimScore (reason domain : String) : Int × List String :=
  match claimHardZeroTag reason with
  | some tag => (0, [tag])
  | none =>
    let ds := claimDeductions reason domain
    (max 0 (min 100 (100 - (ds.map Prod.fst).sum)), ds.map Prod.snd)

/-- The claim's deduction table amended with the one condition the source
applies that the claim omits: reason `mock_risky` deducts 40 with tag
`unverifiable_domain` (applied between the catch-all and free-provider
conditions, as in the source). -/
def amendedDeductions (reason domain : String) : List (Int × String) :=
  (if reason == "role_based" then [((25 : Int), "role_based_email")] else []) ++
  (if reason == "smtp_timeout" || reason == "timeout_after_retry" then
    [((25 : Int), "smtp_unreachable")] else []) ++
  (if reason == "connection_refused" || reason == "connection_reset" then
    [((30 : Int), "smtp_connection_failed")] else []) ++
  (if strStartsWith reason "smtp_soft_fail" || strStartsWith reason "temp_fail_" then
    [((25 : Int), "temporary_smtp_failure")] else []) ++
  (if strStartsWith reason "smtp_" && !(reason == "smtp_ok" || reason == "smtp_timeout") then
    (if !(strContains reason "soft_fail") && !(strContains reason "reject") then
      [((30 : Int), "smtp_error")] else [])
   else []) ++
  (if reason == "domain_accepts_all" then [((15 : Int), "catch_all_domain")] else []) ++
  (if reason == "mock_risky" then [((40 : Int), "unverifiable_domain")] else []) ++
  (if FREE_EMAIL_PROVIDERS.contains domain then [((5 : Int), "free_email_provider")] else [])

/-- The amended claim's scoring formula. -/
def amendedClaimScore (reason domain : String) : Int × List String :=
  match claimHardZeroTag reason with
  | some tag => (0, [tag])
  | none =>
    let ds := amendedDeductions reason domain
    (max 0 (min 100 (100 - (ds.map Prod.fst).sum)), ds.map Prod.snd)

/-! ## SMTPProbe retry policy: `_smtp_check_with_retry` (app.py lines 498-588)

A single SMTP attempt (`_single_smtp_check`) performs network I/O and returns
a `(code, detail)` pair; the embedding abstracts the sequence of per-attempt
results as an oracle `att : Nat → Option Int × String` giving the result of
the i-th attempt.  The backoff sleep between attempts does not affect the
returned value and is not modelled beyond its duration formula. -/

/-- `_jittered_backoff` (app.py lines 498-502), in milliseconds before the
division by 1000: `max(100, RETRY_BACKOFF_MS + jitter)` where the jitter is
drawn from [-300, 300].  The sleep duration never affects the probe result. -/
def jittered_backoff_ms (backoff_ms jitter : Int) : Int :=
  max 100 (backoff_ms + jitter)

/-- Python `code in (550, 551, 552, 553, 554)` (hard reject, never retried). -/
def isHardRejectCode (c : Int) : Bool :=
  c == 550 || c == 551 || c == 552 || c == 553 || c == 554

/-- Hard-reject test on the optional code (`None in (550, ...)` is false). -/
def hardRejectResult : Option Int → Bool
  | some c => isHardRejectCode c
  | none => false

/-- Python `code is None or code in (421, 450, 451, 452)` (transient result,
retried while attempts remain). -/
def isRetryableResult : Option Int → Bool
  | none => true
  | some c => c == 421 || c == 450 || c == 451 || c == 452

/-- Renders the code for the `smtp_reject_<code>` reason string. -/
def codeStr : Option Int → String
  | some c => toString c
  | none => ""

/-- Lines 571-588 of app.py: the final `(code, detailed_reason)` computed from
the last observed `(code, detail)` after the loop exits without an immediate
250 / hard-reject return. -/
def retryFinalResult (retries : Nat) (last_code : Option Int) (last_detail : String) :
    Option Int × String :=
  match last_code with
  | none =>
      if last_detail == "timeout" then
        (none, if retries > 0 then "timeout_after_retry" else "smtp_timeout")
      else if last_detail == "connection_refused" then (none, "connection_refused")
      else if last_detail == "connection_reset" then (none, "connection_reset")
      else (none, "connection_error_" ++ last_detail)
  | some c =>
      if c == 421 || c == 450 || c == 451 || c == 452 then
        (some c, "temp_fail_" ++ toString c ++ (if retries > 0 then "_after_retry" else ""))
      else (some c, "smtp_" ++ toString c)

/-- The `for attempt in range(retries + 1)` loop of `_smtp_check_with_retry`.
`i` is the current attempt index and `fuel = retries + 1 - i` makes the
recursion structural (the zero-fuel case is unreachable from the entry point).
Returns the function's `(code, detailed_reason)` result paired with the number
of single attempts performed. -/
def smtpRetryGo (retries : Nat) (att : Nat → Option Int × String) :
    Nat → Nat → (Option Int × String) × Nat
  | _, 0 => ((none, "unknown"), 0)
  | i, fuel + 1 =>
    if (att i).1 = some 250 then ((some 250, "smtp_ok"), i + 1)
    else if hardRejectResult (att i).1 = true then
      (((att i).1, "smtp_reject_" ++ codeStr (att i).1), i + 1)
    else if isRetryableResult (att i).1 = true ∧ i < retries then
      smtpRetryGo retries att (i + 1) fuel
    else (retryFinalResult retries (att i).1 (att i).2, i + 1)

/-- `_smtp_check_with_retry(email, mx_record)` with `Config.SMTP_RETRIES`
abstracted as `retries` and the per-attempt results abstracted as `att`;
also reports how many attempts were made. -/
def smtp_check_with_retry (retries : Nat) (att : Nat → Option Int × String) :
    (Option Int × String) × Nat :=
  smtpRetryGo retries att 0 (retries + 1)

/-! ## MXCache: `DNSCache` (dns_cache.py) and `CatchAllCache` (catch_all_cache.py)

Each Python class holds a dict keyed by lower-cased domain plus a TTL in
seconds; the dict is embedded as a function map and every wall-clock reading
(`time.time()` / `time.monotonic()`) becomes an explicit `now` argument. -/

/-- `DNSCache` (dns_cache.py): domain → (mx_records, stored-at) with TTL. -/
structure DNSCache where
  cache : String → Option (List String × Int)
  ttl_seconds : Int

/-- `DNSCache.__init__(ttl_minutes)`. -/
def DNSCache.empty (ttl_minutes : Int) : DNSCache :=
  ⟨fun _ => none, ttl_minutes * 60⟩

/-- `DNSCache.get_mx`: returns the cached records if present and fresh;
a stale entry is deleted and `None` returned. -/
def DNSCache.get_mx (c : DNSCache) (domain : String) (now : Int) :
    Option (List String) × DNSCache :=
  match c.cache (strLower domain) with
  | none => (none, c)
  | some (mx_records, stamp) =>
    if now - stamp > c.ttl_seconds then
      (none, { c with cache := fun k => if k = (strLower domain) then none else c.cache k })
    else (some mx_records, c)

/-- `DNSCache.set_mx`. -/
def DNSCache.set_mx (c : DNSCache) (domain : String) (mx_records : List String)
    (now : Int) : DNSCache :=
  { c with cache := fun k => if k = (strLower domain) then some (mx_records, now) else c.cache k }

/-- `DNSCache.set_negative`: caches an empty host list. -/
def DNSCache.set_negative (c : DNSCache) (domain : String) (now : Int) : DNSCache :=
  { c with cache := fun k => if k = (strLower domain) then some ([], now) else c.cache k }

/-- `CatchAllCache` (catch_all_cache.py): domain → (is_catch_all, checked-at). -/
structure CatchAllCache where
  cache : String → Option (Bool × Int)
  ttl_seconds : Int

/-- `CatchAllCache.__init__(ttl_minutes)`. -/
def CatchAllCache.empty (ttl_minutes : Int) : CatchAllCache :=
  ⟨fun _ => none, ttl_minutes * 60⟩

/-- `CatchAllCache.get`: cached status if fresh; stale entries are deleted. -/
def CatchAllCache.get (c : CatchAllCache) (domain : String) (now : Int) :
    Option Bool × CatchAllCache :=
  match c.cache (strLower domain) with
  | none => (none, c)
  | some (is_catch_all, checked_at) =>
    if now - checked_at > c.ttl_seconds then
      (none, { c with cache := fun k => if k = (strLower domain) then none else c.cache k })
    else (some is_catch_all, c)

/-- `CatchAllCache.set`. -/
def CatchAllCache.set (c : CatchAllCache) (domain : String) (is_catch_all : Bool)
    (now : Int) : CatchAllCache :=
  { c with cache := fun k => if k = (strLower domain) then some (is_catch_all, now) else c.cache k }

/-! ## `EMAIL_REGEX` (app.py line 174)

`re.match(r"[^@]+@[^@]+\.[^@]+", email)`: anchored at the start of the
string, matching a prefix suffices.  Since `[^@]+` cannot cross an `@`, the
pattern's `@` must match the first `@` of the string, and the dot must occur
after at least one further character with a non-`@` character following it,
all before the next `@`.  The matcher below implements exactly that. -/

/-- After ≥1 non-`@` character past the `@`: look for a `.` followed by a
non-`@` character, scanning only over non-`@` characters. -/
def domainPatAfter : List Char → Bool
  | [] => false
  | c :: rest =>
    if c == '@' then false
    else if c == '.' then
      (match rest with | d :: _ => d != '@' | [] => false) || domainPatAfter rest
    else domainPatAfter rest

/-- `[^@]+\.[^@]+` as a prefix of the given characters. -/
def domainPat : List Char → Bool
  | [] => false
  | c :: rest => c != '@' && domainPatAfter rest

/-- Scan the local part (already ≥1 character consumed) up to the `@`. -/
def localScan : List Char → Bool
  | [] => false
  | '@' :: rest => domainPat rest
  | _ :: rest => localScan rest

/-- `EMAIL_REGEX.match(email)` as a Boolean. -/
def emailRegexAccepts (email : String) : Bool :=
  match email.data with
  | [] => false
  | c :: rest => c != '@' && localScan rest

/-! ## EmailVerifier: `check_email` (app.py lines 608-694), real mode

Network effects are abstracted by a `VerifyEnv` oracle: the DNS answer per
domain, the observed result of a `_smtp_check_catch_all` probe, and the
per-attempt results of the terminal RCPT probe.  The embedding also returns a
`ProbeTrace` counting how many DNS queries, catch-all probes and terminal
RCPT attempts the call performed, so that caching and probe-avoidance claims
are statable.  The SMTP work happens inside the global and per-domain
semaphores, which are modelled separately (see the concurrency section);
they do not change the returned value.  Note that `check_email` performs its
catch-all check by calling `_smtp_check_catch_all` directly: app.py neither
imports nor holds a `CatchAllCache` instance. -/

/-- The `(status, reason, score, risk_factors)` tuple every check returns. -/
structure Outcome where
  status : String
  reason : String
  score : Int
  risk_factors : List String
deriving DecidableEq, Repr

/-- Possible outcomes of `resolver.resolve(domain, "MX")`. -/
inductive DnsAnswer where
  | records (hosts : List String)
  | nxdomain
  | noAnswer
  | timeout
  | failure
deriving DecidableEq, Repr

/-- Oracle for the network interactions of one `check_email` call. -/
structure VerifyEnv where
  dns : String → DnsAnswer
  catch_all : String → String → Bool
  att : Nat → Option Int × String
  retries : Nat

/-- Effect counters for one `check_email` call. -/
structure ProbeTrace where
  dns_queries : Nat
  catch_all_probes : Nat
  rcpt_probe_attempts : Nat
deriving DecidableEq, Repr

/-- Lines 657-694 of app.py: the part of `check_email` from the
empty-host-list check through the catch-all probe, the terminal RCPT probe
with retry, and the result mapping.  `dq` is the number of DNS queries the
earlier MX stage performed. -/
def checkEmailSmtp (env : VerifyEnv) (mxc : DNSCache) (email domain : String)
    (mx_records : List String) (dq : Nat) : Outcome × DNSCache × ProbeTrace :=
  if mx_records = [] then
    (⟨"invalid", "no_mx", 0, ["no_mail_server"]⟩, mxc, ⟨dq, 0, 0⟩)
  else
    let mx_record := mx_records.headD ""
    if env.catch_all mx_record domain then
      let sr := calculate_score_and_risks email "risky" "domain_accepts_all"
      (⟨"risky", "domain_accepts_all", sr.1, sr.2⟩, mxc, ⟨dq, 1, 0⟩)
    else
      let res := smtp_check_with_retry env.retries env.att
      let code := res.1.1
      let reason := res.1.2
      if code = some 250 then
        let sr := calculate_score_and_risks email "valid" reason
        (⟨"valid", reason, sr.1, sr.2⟩, mxc, ⟨dq, 1, res.2⟩)
      else
        match code with
        | none =>
          let sr := calculate_score_and_risks email "risky" reason
          (⟨"risky", reason, sr.1, sr.2⟩, mxc, ⟨dq, 1, res.2⟩)
        | some c =>
          if c = 421 ∨ c = 450 ∨ c = 451 ∨ c = 452 then
            let sr := calculate_score_and_risks email "risky" reason
            (⟨"risky", reason, sr.1, sr.2⟩, mxc, ⟨dq, 1, res.2⟩)
          else if c = 550 ∨ c = 551 ∨ c = 552 ∨ c = 553 ∨ c = 554 then
            (⟨"invalid", reason, 0, ["mailbox_not_found"]⟩, mxc, ⟨dq, 1, res.2⟩)
          else
            let sr := calculate_score_and_risks email "invalid" reason
            (⟨"invalid", reason, sr.1, sr.2⟩, mxc, ⟨dq, 1, res.2⟩)

/-- `check_email(email)` in real mode (`Config.VALIDATOR_MODE == "real"`):
syntax, disposable and role-based checks, then MX lookup through the cache
with negative caching, then the SMTP stage. -/
def check_email (env : VerifyEnv) (mxc : DNSCache) (now : Int) (email : String) :
    Outcome × DNSCache × ProbeTrace :=
  if !(emailRegexAccepts email) then
    (⟨"invalid", "bad_syntax", 0, ["invalid_syntax"]⟩, mxc, ⟨0, 0, 0⟩)
  else
    let domain := (pySplit email '@').getD 1 ""
    let localPart := (pySplit email '@').getD 0 ""
    if DISPOSABLE_DOMAINS.contains (strLower domain) then
      (⟨"invalid", "disposable_domain", 0, ["disposable_provider"]⟩, mxc, ⟨0, 0, 0⟩)
    else if ROLE_BASED_PREFIXES.contains (strLower localPart) then
      let sr := calculate_score_and_risks email "risky" "role_based"
      (⟨"risky", "role_based", sr.1, sr.2⟩, mxc, ⟨0, 0, 0⟩)
    else
      match mxc.get_mx domain now with
      | (some mx_records, mxc1) => checkEmailSmtp env mxc1 email domain mx_records 0
      | (none, mxc1) =>
        match env.dns domain with
        | .records hosts =>
          checkEmailSmtp env (mxc1.set_mx domain hosts now) email domain hosts 1
        | .nxdomain =>
          (⟨"invalid", "no_mx", 0, ["no_mail_server"]⟩, mxc1.set_negative domain now, ⟨1, 0, 0⟩)
        | .noAnswer =>
          (⟨"invalid", "no_mx", 0, ["no_mail_server"]⟩, mxc1.set_negative domain now, ⟨1, 0, 0⟩)
        | .timeout =>
          (⟨"invalid", "no_mx_dns_timeout", 0, ["no_mail_server"]⟩, mxc1, ⟨1, 0, 0⟩)
        | .failure =>
          (⟨"invalid", "no_mx", 0, ["no_mail_server"]⟩, mxc1, ⟨1, 0, 0⟩)

/-- The MX host list a `check_email` call will use: the cached entry if the
lookup hits, otherwise the freshly resolved records; `none` when resolution
fails (used to phrase "the address reaches the SMTP stage"). -/
def resolvedHosts (env : VerifyEnv) (mxc : DNSCache) (now : Int) (domain : String) :
    Option (List String) :=
  match (mxc.get_mx domain now).1 with
  | some mx_records => some mx_records
  | none =>
    match env.dns domain with
    | .records hosts => some hosts
    | _ => none

/-! ## Durable job store: db.py

One row of the `jobs` table.  Timestamp columns hold ISO-8601 strings whose
lexicographic SQL comparison is order-isomorphic to chronological order, so
they are modelled as `Int`; `avg_score` (REAL) is likewise only stored and
passed through, never computed on here, so `Int` carries it faithfully. -/

structure JobRecord where
  id : String
  filename : Option String
  created_at : Option Int
  completed_at : Option Int
  status : Option String
  email_column : Option String
  mode : Option String
  total_rows : Option Int
  summary_valid : Option Int
  summary_risky : Option Int
  summary_invalid : Option Int
  avg_score : Option Int
  top_risk_factors_json : Option String
  error_message : Option String
  last_heartbeat : Option Int
deriving DecidableEq, Repr

/-- The `job_data` dict passed to `save_job`: the outer `Option` is key
presence, the inner one the (possibly `None`) value. `top_risk_factors` is a
list in the dict and serialized by `save_job` itself. -/
structure JobData where
  id : String
  filename : Option (Option String) := none
  created_at : Option (Option Int) := none
  completed_at : Option (Option Int) := none
  status : Option (Option String) := none
  email_column : Option (Option String) := none
  mode : Option (Option String) := none
  total_rows : Option (Option Int) := none
  summary_valid : Option (Option Int) := none
  summary_risky : Option (Option Int) := none
  summary_invalid : Option (Option Int) := none
  avg_score : Option (Option Int) := none
  top_risk_factors : Option (List String) := none
  error_message : Option (Option String) := none
  last_heartbeat : Option (Option Int) := none

/-- `json.dumps` on a list of plain strings. -/
def jsonDumps (l : List String) : String :=
  "[" ++ String.intercalate ", " (l.map fun t => "\"" ++ t ++ "\"") ++ "]"

/-- The UPDATE branch of `save_job` (db.py lines 135-168): set exactly the
columns whose keys are present, following `field_mapping` — note that
`created_at` is **not** in `field_mapping`, so it is never modified on
update — plus `top_risk_factors_json` when `top_risk_factors` is given. -/
def applyUpdate (r : JobRecord) (jd : JobData) : JobRecord :=
  { r with
    filename := jd.filename.getD r.filename
    completed_at := jd.completed_at.getD r.completed_at
    status := jd.status.getD r.status
    email_column := jd.email_column.getD r.email_column
    mode := jd.mode.getD r.mode
    total_rows := jd.total_rows.getD r.total_rows
    summary_valid := jd.summary_valid.getD r.summary_valid
    summary_risky := jd.summary_risky.getD r.summary_risky
    summary_invalid := jd.summary_invalid.getD r.summary_invalid
    avg_score := jd.avg_score.getD r.avg_score
    error_message := jd.error_message.getD r.error_message
    last_heartbeat := jd.last_heartbeat.getD r.last_heartbeat
    top_risk_factors_json :=
      match jd.top_risk_factors with
      | some l => some (jsonDumps l)
      | none => r.top_risk_factors_json }

/-- The INSERT branch of `save_job` (db.py lines 169-199): missing
`created_at` and `last_heartbeat` default to now, missing `status` defaults
to running, missing summaries to 0; `top_risk_factors_json` is always
written on insert. -/
def insertRecord (jd : JobData) (now : Int) : JobRecord :=
  { id := jd.id
    filename := jd.filename.getD none
    created_at := jd.created_at.getD (some now)
    completed_at := jd.completed_at.getD none
    status := jd.status.getD (some "running")
    email_column := jd.email_column.getD none
    mode := jd.mode.getD none
    total_rows := jd.total_rows.getD none
    summary_valid := jd.summary_valid.getD (some 0)
    summary_risky := jd.summary_risky.getD (some 0)
    summary_invalid := jd.summary_invalid.getD (some 0)
    avg_score := jd.avg_score.getD (some 0)
    top_risk_factors_json := some (jsonDumps (jd.top_risk_factors.getD []))
    error_message := jd.error_message.getD none
    last_heartbeat := jd.last_heartbeat.getD (some now) }

/-- `db.save_job(job_data)`: partial UPDATE if a row with this id exists
(an SQL UPDATE touches every matching row), otherwise INSERT. -/
def save_job (tbl : List JobRecord) (jd : JobData) (now : Int) : List JobRecord :=
  if tbl.any fun r => r.id == jd.id then
    tbl.map fun r => if r.id == jd.id then applyUpdate r jd else r
  else
    tbl ++ [insertRecord jd now]

/-- `SELECT * FROM jobs WHERE id = ?` convenience (first matching row). -/
def findById (tbl : List JobRecord) (i : String) : Option JobRecord :=
  tbl.find? fun r => r.id == i

/-- The WHERE clause of `db.get_stalled_jobs` (db.py lines 447-457): status
running and `last_heartbeat < cutoff`, or no heartbeat recorded and
`created_at < cutoff`, with `cutoff = now - timeout_minutes` (SQL comparison
with NULL is never true). -/
def stalledPred (timeout_minutes nowT : Int) (r : JobRecord) : Bool :=
  r.status == some "running" &&
    (match r.last_heartbeat with
     | some hb => hb < nowT - timeout_minutes * 60
     | none =>
       match r.created_at with
       | some ca => ca < nowT - timeout_minutes * 60
       | none => false)

/-- `db.get_stalled_jobs(timeout_minutes)`. -/
def get_stalled_jobs (tbl : List JobRecord) (timeout_minutes nowT : Int) : List JobRecord :=
  tbl.filter (stalledPred timeout_minutes nowT)

/-! ## StallMonitor: `JobMonitor.check_stalled_jobs_once` (job_monitor.py 60-98) -/

/-- The monitor's skip test: was this job flagged less than 300 seconds ago
(`_last_warning_time` rate limiting, job_monitor.py lines 72-74)? -/
def monitorSkips (warn : String → Option Int) (i : String) (nowW : Int) : Bool :=
  match warn i with
  | some last => nowW - last < 300
  | none => false

/-- The error message written for a stalled job. -/
def stallErrorMessage (timeout_minutes : Int) : String :=
  "Job stalled (no activity for " ++ toString timeout_minutes ++ " minutes)"

/-- The `save_job` payload the monitor writes for a stalled job. -/
def monitorFailData (timeout_minutes nowT : Int) (i : String) : JobData :=
  { id := i
    status := some (some "failed")
    error_message := some (some (stallErrorMessage timeout_minutes))
    completed_at := some (some nowT) }

/-- The body of the `for job in stalled` loop, acting on the accumulated
(table, warning map, count). -/
def monitorStep (timeout_minutes nowW nowT : Int)
    (acc : List JobRecord × (String → Option Int) × Nat) (job : JobRecord) :
    List JobRecord × (String → Option Int) × Nat :=
  if monitorSkips acc.2.1 job.id nowW then acc
  else
    (save_job acc.1 (monitorFailData timeout_minutes nowT job.id) nowT,
     fun k => if k = job.id then some nowW else acc.2.1 k,
     acc.2.2 + 1)

/-- One cycle of `JobMonitor.check_stalled_jobs_once`: fetch the stalled
jobs once from the current table, then process them in order, threading the
evolving table and `_last_warning_time` map.  `nowW` is the monitor's
`time.time()` reading (rate-limit clock), `nowT` the timestamp clock used
for the cutoff and the written `completed_at`. -/
def check_stalled_jobs_once (tbl : List JobRecord) (warn : String → Option Int)
    (timeout_minutes nowW nowT : Int) : List JobRecord × (String → Option Int) × Nat :=
  (get_stalled_jobs tbl timeout_minutes nowT).foldl
    (monitorStep timeout_minutes nowW nowT) (tbl, warn, 0)

/-! ## JobRunner row loop (worker.py `process_verification_job` lines 76-138,
and the identically structured `run()` closure in app.py lines 957-1031)

The loop verifies each row in order and appends the outcome; there is no
try/except around the per-row verification, so an exception propagates out
of the loop.  The embedding abstracts per-row verification as a function
returning `Except`: `.error` models an exception escaping `check_email` (or
any other statement of the loop body).  On normal completion the runner
writes status completed; when an exception escapes, no terminal status is
written by the runner. -/

structure RunResult where
  results : List (String × Outcome)
  finalStatus : Option String
deriving DecidableEq, Repr

/-- The row loop: processes rows in order; an exception aborts the loop with
no terminal status write (the in-memory partial results are lost to the job
record; they are kept here only to state what was processed). -/
def runRows (verify : String → Except String Outcome) :
    List String → List (String × Outcome) → RunResult
  | [], acc => ⟨acc.reverse, some "completed"⟩
  | row :: rest, acc =>
    match verify row with
    | .ok o => runRows verify rest ((row, o) :: acc)
    | .error _ => ⟨acc.reverse, none⟩

/-! ## ConcurrencyGovernor: SMTP semaphores (app.py lines 108-120 and 663-674)

`check_email` wraps its SMTP work in `with smtp_global_semaphore:` and then
`with get_domain_semaphore(domain):`, in that fixed order.  The embedding is
an interleaving transition system: each thread probes one target domain; a
semaphore is a permit counter (`G = Config.SMTP_GLOBAL_WORKERS` permits
globally, `P = Config.SMTP_PER_DOMAIN_LIMIT` per domain);
`get_domain_semaphore` lazily creates the per-domain counter, keyed by the
lower-cased domain, on first use.  Python's `with` releases on every exit
path — normal return, exception or timeout — which the model reflects by an
exit transition from the SMTP section that restores both permits and an
abort transition between the two acquisitions that restores the global
permit. -/

/-- Where a verifying thread stands relative to the two semaphores. -/
inductive Phase where
  | idle
  | holdGlobal (domain : String)
  | inSection (domain : String)
deriving DecidableEq, Repr

/-- Global permit counter, per-domain permit counters (lazily created), and
the phase of each thread. -/
structure SmtpConcState where
  globalAvail : Nat
  domainAvail : String → Option Nat
  threads : List Phase

/-- Threads currently holding the global semaphore. -/
def holdsGlobal : Phase → Bool
  | .idle => false
  | .holdGlobal _ => true
  | .inSection _ => true

/-- Threads currently probing (holding both semaphores) against the
lower-cased domain key `k`. -/
def inSectionAt (k : String) : Phase → Bool
  | .inSection d => strLower d == k
  | _ => false

/-- Threads currently probing, regardless of domain. -/
def inAnySection : Phase → Bool
  | .inSection _ => true
  | _ => false

/-- Permit count of the (lazily created) per-domain semaphore:
`get_domain_semaphore` creates it with `P` permits on first use. -/
def domainPermits (P : Nat) (m : String → Option Nat) (k : String) : Nat :=
  match m k with
  | some n => n
  | none => P

/-- One interleaving step.  Acquisition order is global first, then domain,
exactly as in `check_email`; both exits (normal and abort) restore what the
thread holds. -/
inductive SmtpStep (P : Nat) : SmtpConcState → SmtpConcState → Prop where
  | acquireGlobal (s : SmtpConcState) (l r : List Phase) (d : String) (g : Nat)
      (hth : s.threads = l ++ Phase.idle :: r)
      (hg : s.globalAvail = g + 1) :
      SmtpStep P s ⟨g, s.domainAvail, l ++ Phase.holdGlobal d :: r⟩
  | acquireDomain (s : SmtpConcState) (l r : List Phase) (d : String) (n : Nat)
      (hth : s.threads = l ++ Phase.holdGlobal d :: r)
      (hn : domainPermits P s.domainAvail (strLower d) = n + 1) :
      SmtpStep P s ⟨s.globalAvail,
        fun k => if k = strLower d then some n else s.domainAvail k,
        l ++ Phase.inSection d :: r⟩
  | abortBeforeDomain (s : SmtpConcState) (l r : List Phase) (d : String)
      (hth : s.threads = l ++ Phase.holdGlobal d :: r) :
      SmtpStep P s ⟨s.globalAvail + 1, s.domainAvail, l ++ Phase.idle :: r⟩
  | releaseBoth (s : SmtpConcState) (l r : List Phase) (d : String)
      (hth : s.threads = l ++ Phase.inSection d :: r) :
      SmtpStep P s ⟨s.globalAvail + 1,
        fun k => if k = strLower d then
          some (domainPermits P s.domainAvail (strLower d) + 1)
        else s.domainAvail k,
        l ++ Phase.idle :: r⟩

/-- Start state: all permits free, no per-domain semaphore created yet, all
`n` threads idle. -/
def SmtpInit (G n : Nat) : SmtpConcState :=
  ⟨G, fun _ => none, List.replicate n Phase.idle⟩

/-- States reachable by any interleaving of `n` verifying threads. -/
inductive SmtpReachable (G P n : Nat) : SmtpConcState → Prop where
  | init : SmtpReachable G P n (SmtpInit G n)
  | step {s t : SmtpConcState} :
      SmtpReachable G P n s → SmtpStep P s t → SmtpReachable G P n t

/-- Inductive invariant: the global permit count plus the number of threads
holding the global semaphore is `G`, and for every per-domain key the permit
count (reading an uncreated semaphore as its creation value `P`) plus the
number of threads probing that domain is `P`. -/
def SmtpInv (G P : Nat) (s : SmtpConcState) : Prop :=
  s.globalAvail + s.threads.countP holdsGlobal = G ∧
  ∀ k, domainPermits P s.domainAvail k + s.threads.countP (inSectionAt k) = P

/-! ## Concrete instances used by counterexamples and witnesses -/

/-! ## Concrete instances used by counterexamples and witnesses -/

/-- A network oracle for concrete runs: one MX host, every catch-all probe
answers 250 (catch-all true), terminal probes time out. -/
def envC1 : VerifyEnv :=
  { dns := fun _ => DnsAnswer.records ["mx.corp.example"]
    catch_all := fun _ _ => true
    att := fun _ => (none, "timeout")
    retries := 0 }

/-- A stalled running job, for concrete monitor runs. -/
def recStalled : JobRecord :=
  { id := "job-s", filename := some "big.csv", created_at := some 0, completed_at := none,
    status := some "running", email_column := some "email", mode := some "real",
    total_rows := some 500, summary_valid := some 0, summary_risky := some 0,
    summary_invalid := some 0, avg_score := some 0, top_risk_factors_json := some "[]",
    error_message := none, last_heartbeat := some 100 }

/-- Insertion payload for a completed job. -/
def jdC2insert : JobData :=
  { id := "job-1", filename := some (some "a.csv"), created_at := some (some 0),
    status := some (some "completed"), mode := some (some "real"),
    total_rows := some (some 1), completed_at := some (some 60) }

/-- A later write carrying a different terminal status. -/
def jdC2fail : JobData := { id := "job-1", status := some (some "failed") }

/-- A terminal (completed) job row, for concrete runs. -/
def recDone : JobRecord :=
  { id := "w", filename := some "f.csv", created_at := some 0, completed_at := some 50,
    status := some "completed", email_column := none, mode := some "real",
    total_rows := some 2, summary_valid := some 1, summary_risky := some 0,
    summary_invalid := some 1, avg_score := some 50, top_risk_factors_json := some "[]",
    error_message := none, last_heartbeat := some 40 }

/-- A status write against the completed row. -/
def jdC2w : JobData := { id := "w", status := some (some "failed") }

/-- An existing running job row for `save_job` frame runs. -/
def recC10 : JobRecord :=
  { id := "j10", filename := some "x.csv", created_at := some 5, completed_at := none,
    status := some "running", email_column := none, mode := some "real",
    total_rows := some 3, summary_valid := some 0, summary_risky := some 0,
    summary_invalid := some 0, avg_score := some 0, top_risk_factors_json := some "[]",
    error_message := none, last_heartbeat := some 5 }

/-- Update payload touching a few columns, for the C10 witness. -/
def jdC10w : JobData :=
  { id := "j10", status := some (some "cancelled"), completed_at := some (some 77),
    created_at := some (some 9), top_risk_factors := some ["role_based_email"] }

/-- A per-row verifier whose first row raises (models an exception escaping
`check_email` or the loop body). -/
def verifyBoom : String → Except String Outcome :=
  fun row =>
    if row = "boom@example.com" then Except.error "RuntimeError"
    else Except.ok ⟨"valid", "smtp_ok", 100, []⟩

/-- Attempt results for the C5 witness: transient 450 then success. -/
def attC5 : Nat → Option Int × String :=
  fun j => if j = 0 then (some 450, "transient") else (some 250, "success")

/-- A resolver oracle that reports NXDOMAIN for every domain. -/
def envC6 : VerifyEnv :=
  { dns := fun _ => DnsAnswer.nxdomain
    catch_all := fun _ _ => false
    att := fun _ => (some 250, "success")
    retries := 1 }


-- ===== THEOREMS =====

set_option maxHeartbeats 2000000 in
/-- The source scoring function agrees everywhere with the amended claim's
deduction-table formula (hard-zero short-circuit, otherwise 100 minus the sum
of matched deductions, clamped to [0,100]). -/
lemma scoring_matches_amended_table (email status reason : String) :
    calculate_score_and_risks email status reason = amendedClaimScore reason (emailDomain email) := by
  unfold calculate_score_and_risks amendedClaimScore amendedDeductions claimHardZeroTag
  generalize (reason == "bad_syntax" || reason == "empty_email") = a1
  generalize (reason == "no_mx" || reason == "no_mx_dns_timeout") = a2
  generalize (strStartsWith reason "smtp_reject") = a3
  generalize (reason == "disposable_domain") = a4
  generalize (reason == "role_based") = c1
  generalize (reason == "smtp_timeout" || reason == "timeout_after_retry") = c2
  generalize (reason == "connection_refused" || reason == "connection_reset") = c3
  generalize (strStartsWith reason "smtp_soft_fail" || strStartsWith reason "temp_fail_") = c4
  generalize (strStartsWith reason "smtp_" && !(reason == "smtp_ok" || reason == "smtp_timeout")) = c5
  generalize (!(strContains reason "soft_fail") && !(strContains reason "reject")) = c6
  generalize (reason == "domain_accepts_all") = c7
  generalize (reason == "mock_risky") = c8
  generalize (FREE_EMAIL_PROVIDERS.contains (emailDomain email)) = c9
  revert a1 a2 a3 a4 c1 c2 c3 c4 c5 c6 c7 c8 c9
  decide

/-- A transient (retryable) result is not a 250. -/
lemma retryable_ne_250 {o : Option Int} (h : isRetryableResult o = true) : ¬(o = some 250) := by
  cases o with
  | none => simp
  | some c =>
    simp only [isRetryableResult, Bool.or_eq_true, beq_iff_eq] at h
    simp only [Option.some.injEq]
    omega

/-- A transient (retryable) result is not a hard reject. -/
lemma retryable_not_hardReject {o : Option Int} (h : isRetryableResult o = true) :
    ¬(hardRejectResult o = true) := by
  cases o with
  | none => simp [hardRejectResult]
  | some c =>
    simp only [isRetryableResult, Bool.or_eq_true, beq_iff_eq] at h
    simp only [hardRejectResult, isHardRejectCode, Bool.or_eq_true, beq_iff_eq]
    omega

/-- While every result up to index `retries` is transient, the loop runs all
`retries + 1` attempts and returns the final-reason mapping of the last one. -/
lemma smtpRetryGo_all_retryable (retries : Nat) (att : Nat → Option Int × String)
    (hall : ∀ j, j ≤ retries → isRetryableResult (att j).1 = true) :
    ∀ fuel i, i + fuel = retries + 1 → i ≤ retries →
      smtpRetryGo retries att i fuel =
        (retryFinalResult retries (att retries).1 (att retries).2, retries + 1) := by
  intro fuel
  induction fuel with
  | zero => intro i h1 h2; omega
  | succ fuel ih =>
    intro i h1 h2
    have hri := hall i h2
    simp only [smtpRetryGo]
    rw [if_neg (retryable_ne_250 hri), if_neg (retryable_not_hardReject hri)]
    by_cases hlt : i < retries
    · rw [if_pos ⟨hri, hlt⟩]
      exact ih (i + 1) (by omega) (by omega)
    · have heq : i = retries := by omega
      subst heq
      rw [if_neg (by simp [hlt])]

/-- If `k ≤ retries` is the first non-transient index, the loop stops there,
having made exactly `k + 1` attempts. -/
lemma smtpRetryGo_stops (retries k : Nat) (att : Nat → Option Int × String)
    (hk : isRetryableResult (att k).1 = false) (hkle : k ≤ retries)
    (hpre : ∀ j, j < k → isRetryableResult (att j).1 = true) :
    ∀ fuel i, i + fuel = retries + 1 → i ≤ k →
      (smtpRetryGo retries att i fuel).2 = k + 1 := by
  intro fuel
  induction fuel with
  | zero => intro i h1 h2; omega
  | succ fuel ih =>
    intro i h1 h2
    by_cases hik : i = k
    · subst hik
      simp only [smtpRetryGo]
      by_cases h250 : (att i).1 = some 250
      · rw [if_pos h250]
      · rw [if_neg h250]
        by_cases hhr : hardRejectResult (att i).1 = true
        · rw [if_pos hhr]
        · rw [if_neg hhr, if_neg (by simp [hk])]
    · have hi : i < k := by omega
      have hri := hpre i hi
      simp only [smtpRetryGo]
      rw [if_neg (retryable_ne_250 hri), if_neg (retryable_not_hardReject hri),
          if_pos ⟨hri, by omega⟩]
      exact ih (i + 1) (by omega) (by omega)

/-- C5 (confirmed): the retry loop returns immediately with one attempt on a
first-attempt 250 (reason smtp_ok) or hard-reject 550-554 (reason
smtp_reject_<code>, never retried); the number of attempts equals
min(retries + 1, attempts until the first non-transient result); and when
every attempt up to the retry budget is transient, the loop makes
retries + 1 attempts and returns the final mapping of the last observed
(code, detail). -/
theorem C5_retry_policy (retries : Nat) (att : Nat → Option Int × String) :
    ((att 0).1 = some 250 →
      smtp_check_with_retry retries att = ((some 250, "smtp_ok"), 1)) ∧
    (∀ c : Int, (att 0).1 = some c → isHardRejectCode c = true →
      smtp_check_with_retry retries att = ((some c, "smtp_reject_" ++ toString c), 1)) ∧
    (∀ k : Nat, (∀ j, j < k → isRetryableResult (att j).1 = true) →
      isRetryableResult (att k).1 = false →
      (smtp_check_with_retry retries att).2 = min (retries + 1) (k + 1)) ∧
    ((∀ j, j ≤ retries → isRetryableResult (att j).1 = true) →
      smtp_check_with_retry retries att =
        (retryFinalResult retries (att retries).1 (att retries).2, retries + 1)) := by
  refine ⟨?_, ?_, ?_, ?_⟩
  · intro h
    simp [smtp_check_with_retry, smtpRetryGo, h]
  · intro c hc hhr
    have hne : ¬((att 0).1 = some 250) := by
      intro hcontra
      rw [hc] at hcontra
      have : c = 250 := by simpa using hcontra
      subst this
      simp [isHardRejectCode] at hhr
    simp only [smtp_check_with_retry, smtpRetryGo]
    rw [if_neg hne, if_pos (by simp [hardRejectResult, hc, hhr]), hc]
    simp [codeStr]
  · intro k hpre hk
    by_cases hkr : k ≤ retries
    · rw [smtp_check_with_retry, smtpRetryGo_stops retries k att hk hkr hpre (retries + 1) 0
        (by omega) (by omega)]
      omega
    · have hall : ∀ j, j ≤ retries → isRetryableResult (att j).1 = true := by
        intro j hj
        exact hpre j (by omega)
      rw [smtp_check_with_retry,
        smtpRetryGo_all_retryable retries att hall (retries + 1) 0 (by omega) (by omega)]
      simp
      omega
  · intro hall
    exact smtpRetryGo_all_retryable retries att hall (retries + 1) 0 (by omega) (by omega)


/-- Nobody holds anything in a block of idle threads. -/
lemma countP_replicate_idle (p : Phase → Bool) (hp : p Phase.idle = false) (n : Nat) :
    (List.replicate n Phase.idle).countP p = 0 := by
  rw [List.countP_eq_zero]
  intro a ha
  rw [List.eq_of_mem_replicate ha]
  simp [hp]

/-- Counting a predicate over a list with one distinguished element. -/
lemma countP_append_cons (p : Phase → Bool) (l r : List Phase) (x : Phase) :
    List.countP p (l ++ x :: r) = List.countP p l + List.countP p r + (if p x then 1 else 0) := by
  simp [List.countP_append, List.countP_cons, Nat.add_assoc]

/-- The concurrency invariant is preserved by every interleaving step. -/
lemma smtpInv_step {G P : Nat} {s t : SmtpConcState} (hinv : SmtpInv G P s)
    (hstep : SmtpStep P s t) : SmtpInv G P t := by
  obtain ⟨hg, hd⟩ := hinv
  cases hstep with
  | acquireGlobal l r d g hth hg2 =>
    constructor
    · rw [hth] at hg
      rw [hg2] at hg
      rw [countP_append_cons] at hg
      show g + List.countP holdsGlobal (l ++ Phase.holdGlobal d :: r) = G
      rw [countP_append_cons]
      simp [holdsGlobal] at hg ⊢
      all_goals omega
    · intro k
      have hk := hd k
      rw [hth, countP_append_cons] at hk
      show domainPermits P s.domainAvail k +
        List.countP (inSectionAt k) (l ++ Phase.holdGlobal d :: r) = P
      rw [countP_append_cons]
      simp [inSectionAt] at hk ⊢
      all_goals omega
  | acquireDomain l r d n hth hn =>
    constructor
    · rw [hth, countP_append_cons] at hg
      show s.globalAvail + List.countP holdsGlobal (l ++ Phase.inSection d :: r) = G
      rw [countP_append_cons]
      simp [holdsGlobal] at hg ⊢
      all_goals omega
    · intro k
      have hk := hd k
      rw [hth, countP_append_cons] at hk
      show domainPermits P (fun k => if k = strLower d then some n else s.domainAvail k) k +
        List.countP (inSectionAt k) (l ++ Phase.inSection d :: r) = P
      rw [countP_append_cons]
      by_cases hkd : k = strLower d
      · subst hkd
        rw [hn] at hk
        simp [domainPermits, inSectionAt] at hk ⊢
        all_goals omega
      · have hne : (strLower d == k) = false := by
          simp only [beq_eq_false_iff_ne]
          intro hcontra
          exact hkd hcontra.symm
        simp [domainPermits, inSectionAt, hkd, hne] at hk ⊢
        all_goals omega
  | abortBeforeDomain l r d hth =>
    constructor
    · rw [hth, countP_append_cons] at hg
      show s.globalAvail + 1 + List.countP holdsGlobal (l ++ Phase.idle :: r) = G
      rw [countP_append_cons]
      simp [holdsGlobal] at hg ⊢
      all_goals omega
    · intro k
      have hk := hd k
      rw [hth, countP_append_cons] at hk
      show domainPermits P s.domainAvail k +
        List.countP (inSectionAt k) (l ++ Phase.idle :: r) = P
      rw [countP_append_cons]
      simp [inSectionAt] at hk ⊢
      all_goals omega
  | releaseBoth l r d hth =>
    constructor
    · rw [hth, countP_append_cons] at hg
      show s.globalAvail + 1 + List.countP holdsGlobal (l ++ Phase.idle :: r) = G
      rw [countP_append_cons]
      simp [holdsGlobal] at hg ⊢
      all_goals omega
    · intro k
      have hk := hd k
      rw [hth, countP_append_cons] at hk
      show domainPermits P
          (fun k => if k = strLower d then
            some (domainPermits P s.domainAvail (strLower d) + 1)
          else s.domainAvail k) k +
        List.countP (inSectionAt k) (l ++ Phase.idle :: r) = P
      rw [countP_append_cons]
      by_cases hkd : k = strLower d
      · subst hkd
        simp [domainPermits, inSectionAt] at hk ⊢
        all_goals omega
      · have hne : (strLower d == k) = false := by
          simp only [beq_eq_false_iff_ne]
          intro hcontra
          exact hkd hcontra.symm
        simp [domainPermits, inSectionAt, hkd, hne] at hk ⊢
        all_goals omega

/-- Every reachable state satisfies the invariant. -/
lemma smtpInv_reachable {G P n : Nat} {s : SmtpConcState}
    (h : SmtpReachable G P n s) : SmtpInv G P s := by
  induction h with
  | init =>
    constructor
    · simp [SmtpInit, countP_replicate_idle holdsGlobal rfl]
    · intro k
      simp [SmtpInit, domainPermits, countP_replicate_idle (inSectionAt k) rfl]
  | step hs hstep ih => exact smtpInv_step ih hstep

/-- `applyUpdate` never changes the row id (there is no `id` key in
`field_mapping`). -/
lemma applyUpdate_id (r : JobRecord) (jd : JobData) : (applyUpdate r jd).id = r.id := rfl

/-- Records with equal ids are equal in a table whose ids are distinct. -/
lemma eq_of_mem_of_nodup_ids {tbl : List JobRecord}
    (hnd : (tbl.map JobRecord.id).Nodup) {a b : JobRecord}
    (ha : a ∈ tbl) (hb : b ∈ tbl) (hid : a.id = b.id) : a = b :=
  List.inj_on_of_nodup_map hnd ha hb hid

/-- In a table with distinct ids, looking up a member's id finds it. -/
lemma findById_of_mem_nodup {tbl : List JobRecord}
    (hnd : (tbl.map JobRecord.id).Nodup) {j : JobRecord} (hj : j ∈ tbl) :
    findById tbl j.id = some j := by
  have hsome : (tbl.find? fun r => r.id == j.id).isSome := by
    rw [List.find?_isSome]
    exact ⟨j, hj, by simp⟩
  rcases ho : tbl.find? fun r => r.id == j.id with _ | r
  · rw [ho] at hsome; simp at hsome
  · have hmem := List.mem_of_find?_eq_some ho
    have hpred := List.find?_some ho
    simp only [beq_iff_eq] at hpred
    rw [findById, ho, eq_of_mem_of_nodup_ids hnd hmem hj hpred]

/-- `find?` through a map by an id-preserving function. -/
lemma findById_map_pres (tbl : List JobRecord) (i : String)
    (f : JobRecord → JobRecord) (hid : ∀ r, (f r).id = r.id) :
    findById (tbl.map f) i = (findById tbl i).map f := by
  induction tbl with
  | nil => simp [findById]
  | cons a t ih =>
    simp only [findById, List.map_cons, List.find?_cons] at ih ⊢
    rcases hpa : (a.id == i) with _ | _
    · have : ((f a).id == i) = false := by rw [hid]; exact hpa
      rw [this]
      exact ih
    · have : ((f a).id == i) = true := by rw [hid]; exact hpa
      rw [this]
      simp

/-- `save_job` leaves every row with a different id untouched. -/
lemma save_job_findById_other (tbl : List JobRecord) (jd : JobData) (now : Int)
    (i : String) (hne : i ≠ jd.id) :
    findById (save_job tbl jd now) i = findById tbl i := by
  unfold save_job
  by_cases hex : (tbl.any fun r => r.id == jd.id) = true
  · rw [if_pos hex]
    rw [findById_map_pres tbl i _ (fun r => by
      by_cases hr : (r.id == jd.id) = true
      · simp [hr, applyUpdate_id]
      · simp [hr])]
    rcases ho : findById tbl i with _ | r
    · simp
    · have hpred := List.find?_some ho
      simp only [beq_iff_eq] at hpred
      have hcond : ¬(r.id = jd.id) := by
        rw [hpred]
        exact hne
      simp [hcond]
  · rw [if_neg hex]
    unfold findById
    rw [List.find?_append]
    rcases ho : tbl.find? fun r => r.id == i with _ | r
    · have hcond : ((insertRecord jd now).id == i) = false := by
        simp only [beq_eq_false_iff_ne, insertRecord]
        intro hcontra
        exact hne hcontra.symm
      simp [List.find?_cons, hcond]
    · simp [ho]

/-- On an existing id, `save_job` maps the first matching row through
`applyUpdate`. -/
lemma save_job_findById_self (tbl : List JobRecord) (jd : JobData) (now : Int)
    (hex : (tbl.any fun r => r.id == jd.id) = true) :
    findById (save_job tbl jd now) jd.id =
      (findById tbl jd.id).map (fun r => applyUpdate r jd) := by
  unfold save_job
  rw [if_pos hex]
  rw [findById_map_pres tbl jd.id _ (fun r => by
    by_cases hr : (r.id == jd.id) = true
    · simp [hr, applyUpdate_id]
    · simp [hr])]
  rcases ho : findById tbl jd.id with _ | r
  · simp
  · have hpred := List.find?_some ho
    simp only [beq_iff_eq] at hpred
    simp [hpred]

/-- Jobs whose id does not occur in the processed list are untouched by the
monitor loop, and their warning timestamps are unchanged. -/
lemma monitorFold_notin (tm nowW nowT : Int) (i : String) :
    ∀ js : List JobRecord, (∀ j ∈ js, j.id ≠ i) →
    ∀ acc : List JobRecord × (String → Option Int) × Nat,
      findById (js.foldl (monitorStep tm nowW nowT) acc).1 i = findById acc.1 i ∧
      (js.foldl (monitorStep tm nowW nowT) acc).2.1 i = acc.2.1 i := by
  intro js
  induction js with
  | nil => intro _ acc; exact ⟨rfl, rfl⟩
  | cons a t ih =>
    intro hni acc
    have hai : a.id ≠ i := hni a (List.mem_cons_self a t)
    have ht : ∀ j ∈ t, j.id ≠ i := fun j hj => hni j (List.mem_cons_of_mem a hj)
    rw [List.foldl_cons]
    obtain ⟨h1, h2⟩ := ih ht (monitorStep tm nowW nowT acc a)
    constructor
    · rw [h1]
      unfold monitorStep
      by_cases hskip : monitorSkips acc.2.1 a.id nowW = true
      · rw [if_pos hskip]
      · rw [if_neg hskip]
        exact save_job_findById_other acc.1 _ nowT i fun hcontra => hai hcontra.symm
    · rw [h2]
      unfold monitorStep
      by_cases hskip : monitorSkips acc.2.1 a.id nowW = true
      · rw [if_pos hskip]
      · rw [if_neg hskip]
        simp only []
        rw [if_neg fun hcontra => hai hcontra.symm]

/-- A `findById` hit implies the `any` test `save_job` performs succeeds. -/
lemma any_of_findById {tbl : List JobRecord} {i : String} {r : JobRecord}
    (h : findById tbl i = some r) : (tbl.any fun x => x.id == i) = true := by
  rw [findById] at h
  rw [List.any_eq_true]
  have hpred := List.find?_some h
  exact ⟨r, List.mem_of_find?_eq_some h, hpred⟩

/-- Effect of one monitor cycle on a stalled job occurring once in the
stalled list: marked when not rate-limited, untouched when rate-limited. -/
lemma monitorFold_process (tm nowW nowT : Int) (stalled : List JobRecord)
    (j : JobRecord) (s1 s2 : List JobRecord)
    (hsplit : stalled = s1 ++ j :: s2)
    (hs1 : ∀ x ∈ s1, x.id ≠ j.id) (hs2 : ∀ x ∈ s2, x.id ≠ j.id)
    (tbl : List JobRecord) (warn : String → Option Int)
    (hfind : findById tbl j.id = some j) :
    (monitorSkips warn j.id nowW = false →
      findById (stalled.foldl (monitorStep tm nowW nowT) (tbl, warn, 0)).1 j.id =
        some (applyUpdate j (monitorFailData tm nowT j.id)) ∧
      (stalled.foldl (monitorStep tm nowW nowT) (tbl, warn, 0)).2.1 j.id = some nowW) ∧
    (monitorSkips warn j.id nowW = true →
      findById (stalled.foldl (monitorStep tm nowW nowT) (tbl, warn, 0)).1 j.id = some j ∧
      (stalled.foldl (monitorStep tm nowW nowT) (tbl, warn, 0)).2.1 j.id = warn j.id) := by
  subst hsplit
  rw [List.foldl_append, List.foldl_cons]
  obtain ⟨h1, h2⟩ := monitorFold_notin tm nowW nowT j.id s1 hs1 (tbl, warn, 0)
  obtain ⟨g1, g2⟩ := monitorFold_notin tm nowW nowT j.id s2 hs2
    (monitorStep tm nowW nowT (List.foldl (monitorStep tm nowW nowT) (tbl, warn, 0) s1) j)
  constructor
  · intro hns
    have hskip1 : monitorSkips (List.foldl (monitorStep tm nowW nowT) (tbl, warn, 0) s1).2.1
        j.id nowW = false := by
      rw [monitorSkips, h2]
      exact hns
    rw [g1, g2]
    simp only [monitorStep, hskip1, Bool.false_eq_true, if_false]
    constructor
    · have hany : ((List.foldl (monitorStep tm nowW nowT) (tbl, warn, 0) s1).1.any
          fun x => x.id == j.id) = true := by
        apply any_of_findById
        rw [h1]
        exact hfind
      have hsave := save_job_findById_self
        (List.foldl (monitorStep tm nowW nowT) (tbl, warn, 0) s1).1
        (monitorFailData tm nowT j.id) nowT hany
      have hsid : (monitorFailData tm nowT j.id).id = j.id := rfl
      rw [hsid] at hsave
      rw [hsave, h1, hfind]
      rfl
    · simp
  · intro hsk
    have hskip1 : monitorSkips (List.foldl (monitorStep tm nowW nowT) (tbl, warn, 0) s1).2.1
        j.id nowW = true := by
      rw [monitorSkips, h2]
      exact hsk
    rw [g1, g2]
    simp only [monitorStep, hskip1, if_true]
    exact ⟨by rw [h1]; exact hfind, h2⟩

/-- Full effect of one monitor cycle on any single job of a table with
distinct ids: a stalled running job not in its cooldown window is marked
failed with the stall message and completion timestamp and its warning time
is recorded; a stalled job inside the cooldown window is untouched; a job
that is not stalled (fresh heartbeat, or terminal status) is untouched. -/
lemma monitor_effect (tbl : List JobRecord) (warn : String → Option Int)
    (tm nowW nowT : Int) (j : JobRecord)
    (hnd : (tbl.map JobRecord.id).Nodup) (hj : j ∈ tbl) :
    (stalledPred tm nowT j = true → monitorSkips warn j.id nowW = false →
      findById (check_stalled_jobs_once tbl warn tm nowW nowT).1 j.id =
        some (applyUpdate j (monitorFailData tm nowT j.id)) ∧
      (check_stalled_jobs_once tbl warn tm nowW nowT).2.1 j.id = some nowW) ∧
    (stalledPred tm nowT j = true → monitorSkips warn j.id nowW = true →
      findById (check_stalled_jobs_once tbl warn tm nowW nowT).1 j.id = some j ∧
      (check_stalled_jobs_once tbl warn tm nowW nowT).2.1 j.id = warn j.id) ∧
    (stalledPred tm nowT j = false →
      findById (check_stalled_jobs_once tbl warn tm nowW nowT).1 j.id = some j ∧
      (check_stalled_jobs_once tbl warn tm nowW nowT).2.1 j.id = warn j.id) := by
  have hfind := findById_of_mem_nodup hnd hj
  have hstnd : ((get_stalled_jobs tbl tm nowT).map JobRecord.id).Nodup :=
    List.Nodup.sublist (List.Sublist.map JobRecord.id (List.filter_sublist tbl)) hnd
  refine ⟨?_, ?_, ?_⟩
  · intro hst hns
    have hmem : j ∈ get_stalled_jobs tbl tm nowT := by
      rw [get_stalled_jobs, List.mem_filter]
      exact ⟨hj, hst⟩
    obtain ⟨s1, s2, hsplit⟩ := List.append_of_mem hmem
    rw [hsplit] at hstnd
    simp only [List.map_append, List.map_cons] at hstnd
    have hmid := List.nodup_middle.mp hstnd
    have hnotmem := (List.nodup_cons.mp hmid).1
    rw [List.mem_append] at hnotmem
    have hs1 : ∀ x ∈ s1, x.id ≠ j.id := by
      intro x hx hxid
      exact hnotmem (Or.inl (hxid ▸ List.mem_map_of_mem JobRecord.id hx))
    have hs2 : ∀ x ∈ s2, x.id ≠ j.id := by
      intro x hx hxid
      exact hnotmem (Or.inr (hxid ▸ List.mem_map_of_mem JobRecord.id hx))
    exact (monitorFold_process tm nowW nowT _ j s1 s2 hsplit hs1 hs2 tbl warn hfind).1 hns
  · intro hst hsk
    have hmem : j ∈ get_stalled_jobs tbl tm nowT := by
      rw [get_stalled_jobs, List.mem_filter]
      exact ⟨hj, hst⟩
    obtain ⟨s1, s2, hsplit⟩ := List.append_of_mem hmem
    rw [hsplit] at hstnd
    simp only [List.map_append, List.map_cons] at hstnd
    have hmid := List.nodup_middle.mp hstnd
    have hnotmem := (List.nodup_cons.mp hmid).1
    rw [List.mem_append] at hnotmem
    have hs1 : ∀ x ∈ s1, x.id ≠ j.id := by
      intro x hx hxid
      exact hnotmem (Or.inl (hxid ▸ List.mem_map_of_mem JobRecord.id hx))
    have hs2 : ∀ x ∈ s2, x.id ≠ j.id := by
      intro x hx hxid
      exact hnotmem (Or.inr (hxid ▸ List.mem_map_of_mem JobRecord.id hx))
    exact (monitorFold_process tm nowW nowT _ j s1 s2 hsplit hs1 hs2 tbl warn hfind).2 hsk
  · intro hst
    have hni : ∀ x ∈ get_stalled_jobs tbl tm nowT, x.id ≠ j.id := by
      intro x hx hxid
      rw [get_stalled_jobs, List.mem_filter] at hx
      have hxj : x = j := eq_of_mem_of_nodup_ids hnd hx.1 hj hxid
      rw [hxj, hst] at hx
      exact Bool.false_ne_true hx.2
    obtain ⟨h1, h2⟩ := monitorFold_notin tm nowW nowT j.id
      (get_stalled_jobs tbl tm nowT) hni (tbl, warn, 0)
    rw [check_stalled_jobs_once]
    exact ⟨by rw [h1]; exact hfind, h2⟩

/-- After the syntax, disposable and role-based gates pass, `check_email`
is its MX/SMTP tail. -/
lemma check_email_mx_stage (env : VerifyEnv) (mxc : DNSCache) (now : Int) (email : String)
    (hre : emailRegexAccepts email = true)
    (hdisp : DISPOSABLE_DOMAINS.contains (strLower ((pySplit email '@').getD 1 "")) = false)
    (hrole : ROLE_BASED_PREFIXES.contains (strLower ((pySplit email '@').getD 0 "")) = false) :
    check_email env mxc now email =
      match DNSCache.get_mx mxc ((pySplit email '@').getD 1 "") now with
      | (some mx_records, mxc1) =>
        checkEmailSmtp env mxc1 email ((pySplit email '@').getD 1 "") mx_records 0
      | (none, mxc1) =>
        match env.dns ((pySplit email '@').getD 1 "") with
        | .records hosts =>
          checkEmailSmtp env (mxc1.set_mx ((pySplit email '@').getD 1 "") hosts now)
            email ((pySplit email '@').getD 1 "") hosts 1
        | .nxdomain =>
          (⟨"invalid", "no_mx", 0, ["no_mail_server"]⟩,
            mxc1.set_negative ((pySplit email '@').getD 1 "") now, ⟨1, 0, 0⟩)
        | .noAnswer =>
          (⟨"invalid", "no_mx", 0, ["no_mail_server"]⟩,
            mxc1.set_negative ((pySplit email '@').getD 1 "") now, ⟨1, 0, 0⟩)
        | .timeout =>
          (⟨"invalid", "no_mx_dns_timeout", 0, ["no_mail_server"]⟩, mxc1, ⟨1, 0, 0⟩)
        | .failure =>
          (⟨"invalid", "no_mx", 0, ["no_mail_server"]⟩, mxc1, ⟨1, 0, 0⟩) := by
  unfold check_email
  simp only [hre, Bool.not_true, Bool.false_eq_true, if_false, hdisp, hrole]

/-- The SMTP stage always performs exactly one catch-all probe when the host
list is non-empty, and a positive catch-all result short-circuits: the
outcome is risky/domain_accepts_all and no terminal RCPT attempt is made. -/
lemma checkEmailSmtp_catch (env : VerifyEnv) (mxc : DNSCache) (email domain : String)
    (mx_records : List String) (dq : Nat) (hne : mx_records ≠ []) :
    (checkEmailSmtp env mxc email domain mx_records dq).2.2.catch_all_probes = 1 ∧
    (env.catch_all (mx_records.headD "") domain = true →
      (checkEmailSmtp env mxc email domain mx_records dq).1.status = "risky" ∧
      (checkEmailSmtp env mxc email domain mx_records dq).1.reason = "domain_accepts_all" ∧
      (checkEmailSmtp env mxc email domain mx_records dq).2.2.rcpt_probe_attempts = 0) := by
  unfold checkEmailSmtp
  rw [if_neg hne]
  by_cases hca : env.catch_all (mx_records.headD "") domain = true
  · rw [if_pos hca]
    exact ⟨rfl, fun _ => ⟨rfl, rfl, rfl⟩⟩
  · rw [if_neg hca]
    constructor
    · dsimp only
      repeat' split
      all_goals rfl
    · intro hcontra
      exact absurd hcontra hca

/-- C1 counterexample: two back-to-back verifications of addresses at the
same domain, ten time units apart (far inside any catch-all TTL), each
perform their own catch-all SMTP probe — the claimed CatchAllCache
consultation does not happen (`check_email` never touches a CatchAllCache),
so the second verification does not avoid the probe as the claim states.
(The second call's MX lookup does hit the MX cache: dns_queries = 0.) -/
theorem C1_counterexample :
    (check_email envC1 (DNSCache.empty 30) 0 "alice@corp.example").2.2.catch_all_probes = 1 ∧
    (check_email envC1
        (check_email envC1 (DNSCache.empty 30) 0 "alice@corp.example").2.1
        10 "bob@corp.example").2.2.catch_all_probes = 1 ∧
    (check_email envC1
        (check_email envC1 (DNSCache.empty 30) 0 "alice@corp.example").2.1
        10 "bob@corp.example").2.2.dns_queries = 0 := by
  decide

/-- C1 (corrected, amended): every address that reaches the catch-all step
(syntactically valid, not disposable, not role-based, non-empty MX host
list) causes exactly one catch-all SMTP probe on every verification — no
cache is consulted or populated; when the probe reports the domain as
catch-all the address yields risky/domain_accepts_all and no terminal RCPT
probe is made. -/
theorem C1_amended (env : VerifyEnv) (mxc : DNSCache) (now : Int) (email : String)
    (hosts : List String)
    (hre : emailRegexAccepts email = true)
    (hdisp : DISPOSABLE_DOMAINS.contains (strLower ((pySplit email '@').getD 1 "")) = false)
    (hrole : ROLE_BASED_PREFIXES.contains (strLower ((pySplit email '@').getD 0 "")) = false)
    (hres : resolvedHosts env mxc now ((pySplit email '@').getD 1 "") = some hosts)
    (hne : hosts ≠ []) :
    (check_email env mxc now email).2.2.catch_all_probes = 1 ∧
    (env.catch_all (hosts.headD "") ((pySplit email '@').getD 1 "") = true →
      (check_email env mxc now email).1.status = "risky" ∧
      (check_email env mxc now email).1.reason = "domain_accepts_all" ∧
      (check_email env mxc now email).2.2.rcpt_probe_attempts = 0) := by
  rw [check_email_mx_stage env mxc now email hre hdisp hrole]
  rw [resolvedHosts] at hres
  rcases hget : DNSCache.get_mx mxc ((pySplit email '@').getD 1 "") now with ⟨o, mxc1⟩
  rw [hget] at hres
  rcases o with _ | mx
  · dsimp only at hres ⊢
    cases hdns : env.dns ((pySplit email '@').getD 1 "") with
    | records hosts2 =>
      rw [hdns] at hres
      simp at hres
      rw [hres]
      exact checkEmailSmtp_catch env _ email _ hosts 1 hne
    | nxdomain => rw [hdns] at hres; simp at hres
    | noAnswer => rw [hdns] at hres; simp at hres
    | timeout => rw [hdns] at hres; simp at hres
    | failure => rw [hdns] at hres; simp at hres
  · dsimp only at hres ⊢
    simp at hres
    rw [hres]
    exact checkEmailSmtp_catch env mxc1 email _ hosts 0 hne

/-- `get_mx` never changes the configured TTL. -/
lemma DNSCache.get_mx_ttl (c : DNSCache) (d : String) (t : Int) :
    ((c.get_mx d t).2).ttl_seconds = c.ttl_seconds := by
  unfold DNSCache.get_mx
  repeat' split
  all_goals rfl

/-- C6 (confirmed): on a cache miss, an NXDOMAIN or no-answer DNS result is
stored in the MX cache as an empty host list and the address yields
(invalid, no_mx, 0, [no_mail_server]); any later lookup of the same domain
within the MX TTL hits the cache (no new DNS query) and again yields
invalid/no_mx; a resolver timeout is never cached and yields
(invalid, no_mx_dns_timeout, 0, [no_mail_server]); any cached or freshly
resolved empty host list yields invalid/no_mx. -/
theorem C6_mx_negative_caching (env : VerifyEnv) (mxc : DNSCache) (now : Int) (email domain : String)
    (hdom : domain = (pySplit email '@').getD 1 "")
    (hre : emailRegexAccepts email = true)
    (hdisp : DISPOSABLE_DOMAINS.contains (strLower domain) = false)
    (hrole : ROLE_BASED_PREFIXES.contains (strLower ((pySplit email '@').getD 0 "")) = false) :
    ((mxc.get_mx domain now).1 = none →
      (env.dns domain = DnsAnswer.nxdomain ∨ env.dns domain = DnsAnswer.noAnswer) →
      (check_email env mxc now email).1 =
        ⟨"invalid", "no_mx", 0, ["no_mail_server"]⟩ ∧
      (check_email env mxc now email).2.1.cache (strLower domain) = some ([], now) ∧
      (check_email env mxc now email).2.2.dns_queries = 1 ∧
      (∀ email2 now2, emailRegexAccepts email2 = true →
        domain = (pySplit email2 '@').getD 1 "" →
        ROLE_BASED_PREFIXES.contains (strLower ((pySplit email2 '@').getD 0 "")) = false →
        now2 - now ≤ mxc.ttl_seconds →
        (check_email env (check_email env mxc now email).2.1 now2 email2).1 =
          ⟨"invalid", "no_mx", 0, ["no_mail_server"]⟩ ∧
        (check_email env (check_email env mxc now email).2.1 now2 email2).2.2.dns_queries
          = 0)) ∧
    (mxc.cache (strLower domain) = none →
      env.dns domain = DnsAnswer.timeout →
      (check_email env mxc now email).1 =
        ⟨"invalid", "no_mx_dns_timeout", 0, ["no_mail_server"]⟩ ∧
      (check_email env mxc now email).2.1.cache (strLower domain) = none ∧
      (check_email env mxc now email).2.2.dns_queries = 1) ∧
    (resolvedHosts env mxc now domain = some [] →
      (check_email env mxc now email).1 = ⟨"invalid", "no_mx", 0, ["no_mail_server"]⟩) := by
  refine ⟨?_, ?_, ?_⟩
  · intro hmiss hnx
    rcases hget : mxc.get_mx domain now with ⟨o, mxc1⟩
    have httl1 : mxc1.ttl_seconds = mxc.ttl_seconds := by
      have := DNSCache.get_mx_ttl mxc domain now
      rw [hget] at this
      exact this
    rw [hget] at hmiss
    dsimp only at hmiss
    subst hmiss
    rw [hdom] at hget
    rw [check_email_mx_stage env mxc now email hre (hdom ▸ hdisp) hrole, hget]
    dsimp only
    have hout :
        (match env.dns ((pySplit email '@').getD 1 "") with
          | DnsAnswer.records hosts =>
            checkEmailSmtp env (mxc1.set_mx ((pySplit email '@').getD 1 "") hosts now)
              email ((pySplit email '@').getD 1 "") hosts 1
          | DnsAnswer.nxdomain =>
            (⟨"invalid", "no_mx", 0, ["no_mail_server"]⟩,
              mxc1.set_negative ((pySplit email '@').getD 1 "") now, ⟨1, 0, 0⟩)
          | DnsAnswer.noAnswer =>
            (⟨"invalid", "no_mx", 0, ["no_mail_server"]⟩,
              mxc1.set_negative ((pySplit email '@').getD 1 "") now, ⟨1, 0, 0⟩)
          | DnsAnswer.timeout =>
            (⟨"invalid", "no_mx_dns_timeout", 0, ["no_mail_server"]⟩, mxc1, ⟨1, 0, 0⟩)
          | DnsAnswer.failure =>
            (⟨"invalid", "no_mx", 0, ["no_mail_server"]⟩, mxc1, ⟨1, 0, 0⟩)) =
        ((⟨"invalid", "no_mx", 0, ["no_mail_server"]⟩ : Outcome),
          mxc1.set_negative ((pySplit email '@').getD 1 "") now,
          (⟨1, 0, 0⟩ : ProbeTrace)) := by
      rcases hnx with h | h <;> rw [hdom] at h <;> rw [h]
    rw [hout]
    refine ⟨rfl, ?_, rfl, ?_⟩
    · rw [DNSCache.set_negative]
      dsimp only
      rw [hdom, if_pos rfl]
    · intro email2 now2 hre2 hdom2 hrole2 httl
      have hdisp2 : DISPOSABLE_DOMAINS.contains
          (strLower ((pySplit email2 '@').getD 1 "")) = false := by
        rw [← hdom2]
        exact hdisp
      rw [check_email_mx_stage env _ now2 email2 hre2 hdisp2 hrole2]
      rw [← hdom2, hdom]
      have hget2 : DNSCache.get_mx
          (mxc1.set_negative ((pySplit email '@').getD 1 "") now)
          ((pySplit email '@').getD 1 "") now2 =
          (some [], mxc1.set_negative ((pySplit email '@').getD 1 "") now) := by
        rw [DNSCache.get_mx]
        dsimp only [DNSCache.set_negative]
        rw [if_pos rfl]
        dsimp only
        rw [if_neg (show ¬(now2 - now > mxc1.ttl_seconds) by rw [httl1]; omega)]
      rw [hget2]
      exact ⟨rfl, rfl⟩
  · intro hmiss htmo
    have hget2 : mxc.get_mx domain now = (none, mxc) := by
      rw [DNSCache.get_mx, hmiss]
    rw [hdom] at hget2 htmo
    rw [check_email_mx_stage env mxc now email hre (hdom ▸ hdisp) hrole, hget2]
    dsimp only
    rw [htmo]
    refine ⟨rfl, ?_, rfl⟩
    rw [hdom]
    rw [hdom] at hmiss
    exact hmiss
  · intro hres
    rw [hdom] at hres
    rw [check_email_mx_stage env mxc now email hre (hdom ▸ hdisp) hrole]
    rw [resolvedHosts] at hres
    rcases hget : DNSCache.get_mx mxc ((pySplit email '@').getD 1 "") now with ⟨o, mxc1⟩
    rw [hget] at hres
    rcases o with _ | mx
    · dsimp only at hres ⊢
      cases hdns : env.dns ((pySplit email '@').getD 1 "") with
      | records hosts2 =>
        rw [hdns] at hres
        simp at hres
        rw [hres]
        rfl
      | nxdomain => rfl
      | noAnswer => rfl
      | timeout => rw [hdns] at hres; simp at hres
      | failure => rfl
    · dsimp only at hres ⊢
      simp at hres
      rw [hres]
      rfl

/-- C7 (confirmed): a monitor cycle transitions to failed — with the
descriptive stall message and a completion timestamp — exactly those jobs
whose stored status is running and whose last_heartbeat (or created_at when
none was recorded) is older than the stall timeout (`stalledPred`), skipping
jobs flagged within the 300-second cooldown window (`monitorSkips`); a job
with a fresh heartbeat, or any non-running job, is never transitioned. -/
theorem C7_stall_monitor (tbl : List JobRecord) (warn : String → Option Int)
    (tm nowW nowT : Int) (j : JobRecord)
    (hnd : (tbl.map JobRecord.id).Nodup) (hj : j ∈ tbl) :
    (stalledPred tm nowT j = true → monitorSkips warn j.id nowW = false →
      findById (check_stalled_jobs_once tbl warn tm nowW nowT).1 j.id =
        some { j with
                status := some "failed"
                error_message := some (stallErrorMessage tm)
                completed_at := some nowT } ∧
      (check_stalled_jobs_once tbl warn tm nowW nowT).2.1 j.id = some nowW) ∧
    (stalledPred tm nowT j = true → monitorSkips warn j.id nowW = true →
      findById (check_stalled_jobs_once tbl warn tm nowW nowT).1 j.id = some j) ∧
    (stalledPred tm nowT j = false →
      findById (check_stalled_jobs_once tbl warn tm nowW nowT).1 j.id = some j) := by
  obtain ⟨hA, hB, hC⟩ := monitor_effect tbl warn tm nowW nowT j hnd hj
  refine ⟨?_, ?_, ?_⟩
  · intro h1 h2
    obtain ⟨ha1, ha2⟩ := hA h1 h2
    refine ⟨?_, ha2⟩
    rw [ha1]
    rfl
  · intro h1 h2
    exact (hB h1 h2).1
  · intro h1
    exact (hC h1).1

/-- C7 witness: concrete instance. -/
theorem C7_witness :
    stalledPred 10 1000 recStalled = true ∧
    monitorSkips (fun _ => none) "job-s" 5000 = false ∧
    findById (check_stalled_jobs_once [recStalled] (fun _ => none) 10 5000 1000).1 "job-s" =
      some { recStalled with
              status := some "failed"
              error_message := some (stallErrorMessage 10)
              completed_at := some (1000 : Int) } := by
  refine ⟨by decide, rfl, ?_⟩
  exact ((C7_stall_monitor [recStalled] (fun _ => none) 10 5000 1000 recStalled
    (by decide) (by decide)).1 (by decide) rfl).1

/-- C2 (corrected, amended): `save_job` performs an unconditional partial
update — any save carrying a status field overwrites the stored status, even
a terminal one; a terminal job is protected from the stall monitor only
because `get_stalled_jobs` selects exclusively rows whose stored status is
running at fetch time, so a sequential monitor cycle leaves every
completed/cancelled/failed row unchanged. -/
theorem C2_amended :
    (∀ (tbl : List JobRecord) (jd : JobData) (now : Int) (v : Option String) (r : JobRecord),
      jd.status = some v →
      (List.any tbl fun x => x.id == jd.id) = true →
      r ∈ save_job tbl jd now → r.id = jd.id →
      r.status = v) ∧
    (∀ (tbl : List JobRecord) (warn : String → Option Int) (tm nowW nowT : Int)
      (j : JobRecord),
      (tbl.map JobRecord.id).Nodup → j ∈ tbl →
      (j.status = some "completed" ∨ j.status = some "cancelled" ∨ j.status = some "failed") →
      findById (check_stalled_jobs_once tbl warn tm nowW nowT).1 j.id = some j) := by
  constructor
  · intro tbl jd now v r hstat hany hmem hid
    rw [save_job, if_pos hany] at hmem
    rw [List.mem_map] at hmem
    obtain ⟨x, hx, hfx⟩ := hmem
    by_cases hxid : (x.id == jd.id) = true
    · rw [if_pos hxid] at hfx
      rw [← hfx]
      show (applyUpdate x jd).status = v
      simp [applyUpdate, hstat]
    · rw [if_neg hxid] at hfx
      rw [← hfx] at hid
      simp only [beq_iff_eq] at hxid
      exact absurd hid hxid
  · intro tbl warn tm nowW nowT j hnd hj hterm
    have hst : stalledPred tm nowT j = false := by
      rw [stalledPred]
      rcases hterm with h | h | h <;> rw [h] <;> rfl
    exact ((monitor_effect tbl warn tm nowW nowT j hnd hj).2.2 hst).1

/-- C2 counterexample: a job whose stored status is the terminal value
completed has its status overwritten to failed by a subsequent `save_job`
carrying a status field — the stored terminal status does not stay
unchanged as the claim states. -/
theorem C2_counterexample :
    (findById (save_job [] jdC2insert 0) "job-1").map JobRecord.status =
      some (some "completed") ∧
    (findById (save_job (save_job [] jdC2insert 0) jdC2fail 5) "job-1").map JobRecord.status =
      some (some "failed") := by
  decide

/-- C2 witness: concrete instance of the amended theorem. -/
theorem C2_witness :
    (applyUpdate recDone jdC2w).status = some "failed" ∧
    findById (check_stalled_jobs_once [recDone] (fun _ => none) 10 100 1000).1 "w" =
      some recDone := by
  constructor
  · exact C2_amended.1 [recDone] jdC2w 9 (some "failed") (applyUpdate recDone jdC2w)
      rfl (by decide) (by decide) rfl
  · exact C2_amended.2 [recDone] (fun _ => none) 10 100 1000 recDone
      (by decide) (by decide) (Or.inl rfl)

/-- C10 counterexample: a `save_job` call on an existing id whose argument
carries the key created_at (a column of the jobs table) leaves the stored
created_at column unchanged — `created_at` is missing from `field_mapping`,
so not every column corresponding to a present key is updated. -/
theorem C10_counterexample :
    ({ id := "j10", created_at := some (some 9) } : JobData).created_at = some (some 9) ∧
    (findById (save_job [recC10] { id := "j10", created_at := some (some 9) } 9)
        "j10").map JobRecord.created_at = some (some 5) := by
  decide

/-- C10 (corrected, amended): on an existing id, `save_job` updates exactly
the columns among filename, completed_at, status, email_column, mode,
total_rows, summary_valid, summary_risky, summary_invalid, avg_score,
error_message and last_heartbeat whose keys are present (plus the serialized
top_risk_factors column when top_risk_factors is given); created_at is never
modified on update, the row id and every other row are unchanged; on a
missing id it appends a fresh row whose status defaults to running and whose
created_at and last_heartbeat default to the current time. -/
theorem C10_amended :
    (∀ (tbl : List JobRecord) (jd : JobData) (now : Int),
      (List.any tbl fun r => r.id == jd.id) = true →
      ((save_job tbl jd now).length = tbl.length ∧
       ∀ i (h1 : i < tbl.length) (h2 : i < (save_job tbl jd now).length),
        ((tbl.get ⟨i, h1⟩).id ≠ jd.id →
          (save_job tbl jd now).get ⟨i, h2⟩ = tbl.get ⟨i, h1⟩) ∧
        ((tbl.get ⟨i, h1⟩).id = jd.id →
          ((save_job tbl jd now).get ⟨i, h2⟩).id = (tbl.get ⟨i, h1⟩).id ∧
          ((save_job tbl jd now).get ⟨i, h2⟩).created_at = (tbl.get ⟨i, h1⟩).created_at ∧
          ((save_job tbl jd now).get ⟨i, h2⟩).filename =
            jd.filename.getD (tbl.get ⟨i, h1⟩).filename ∧
          ((save_job tbl jd now).get ⟨i, h2⟩).completed_at =
            jd.completed_at.getD (tbl.get ⟨i, h1⟩).completed_at ∧
          ((save_job tbl jd now).get ⟨i, h2⟩).status =
            jd.status.getD (tbl.get ⟨i, h1⟩).status ∧
          ((save_job tbl jd now).get ⟨i, h2⟩).email_column =
            jd.email_column.getD (tbl.get ⟨i, h1⟩).email_column ∧
          ((save_job tbl jd now).get ⟨i, h2⟩).mode =
            jd.mode.getD (tbl.get ⟨i, h1⟩).mode ∧
          ((save_job tbl jd now).get ⟨i, h2⟩).total_rows =
            jd.total_rows.getD (tbl.get ⟨i, h1⟩).total_rows ∧
          ((save_job tbl jd now).get ⟨i, h2⟩).summary_valid =
            jd.summary_valid.getD (tbl.get ⟨i, h1⟩).summary_valid ∧
          ((save_job tbl jd now).get ⟨i, h2⟩).summary_risky =
            jd.summary_risky.getD (tbl.get ⟨i, h1⟩).summary_risky ∧
          ((save_job tbl jd now).get ⟨i, h2⟩).summary_invalid =
            jd.summary_invalid.getD (tbl.get ⟨i, h1⟩).summary_invalid ∧
          ((save_job tbl jd now).get ⟨i, h2⟩).avg_score =
            jd.avg_score.getD (tbl.get ⟨i, h1⟩).avg_score ∧
          ((save_job tbl jd now).get ⟨i, h2⟩).error_message =
            jd.error_message.getD (tbl.get ⟨i, h1⟩).error_message ∧
          ((save_job tbl jd now).get ⟨i, h2⟩).last_heartbeat =
            jd.last_heartbeat.getD (tbl.get ⟨i, h1⟩).last_heartbeat ∧
          ((save_job tbl jd now).get ⟨i, h2⟩).top_risk_factors_json =
            (match jd.top_risk_factors with
             | some l => some (jsonDumps l)
             | none => (tbl.get ⟨i, h1⟩).top_risk_factors_json)))) ∧
    (∀ (tbl : List JobRecord) (jd : JobData) (now : Int),
      (List.any tbl fun r => r.id == jd.id) = false →
      save_job tbl jd now = tbl ++ [insertRecord jd now] ∧
      (insertRecord jd now).status = jd.status.getD (some "running") ∧
      (insertRecord jd now).last_heartbeat = jd.last_heartbeat.getD (some now) ∧
      (insertRecord jd now).created_at = jd.created_at.getD (some now)) := by
  constructor
  · intro tbl jd now hany
    rw [save_job, if_pos hany]
    refine ⟨List.length_map tbl _, ?_⟩
    intro i h1 h2
    have hget : (tbl.map fun r => if r.id == jd.id then applyUpdate r jd else r).get ⟨i, h2⟩ =
        (fun r => if r.id == jd.id then applyUpdate r jd else r) (tbl.get ⟨i, h1⟩) := by
      simp [List.get_eq_getElem, List.getElem_map]
    rw [hget]
    dsimp only
    constructor
    · intro hne
      rw [if_neg (by simpa using hne)]
    · intro heq
      rw [if_pos (by simpa using heq)]
      exact ⟨rfl, rfl, rfl, rfl, rfl, rfl, rfl, rfl, rfl, rfl, rfl, rfl, rfl, rfl, rfl⟩
  · intro tbl jd now hany
    refine ⟨?_, rfl, rfl, rfl⟩
    rw [save_job, if_neg (by simp [hany])]

/-- C10 witness: concrete instance of the amended theorem. -/
theorem C10_witness :
    ((save_job [recC10] jdC10w 7).get ⟨0, by decide⟩).status = some "cancelled" ∧
    ((save_job [recC10] jdC10w 7).get ⟨0, by decide⟩).created_at = some 5 ∧
    ((save_job [recC10] jdC10w 7).get ⟨0, by decide⟩).top_risk_factors_json =
      some (jsonDumps ["role_based_email"]) ∧
    save_job [] jdC10w 7 = [] ++ [insertRecord jdC10w 7] := by
  have h := (C10_amended.1 [recC10] jdC10w 7 (by decide)).2 0 (by decide) (by decide)
  have h2 := h.2 (by decide)
  exact ⟨h2.2.2.2.2.1, h2.2.1, h2.2.2.2.2.2.2.2.2.2.2.2.2.2.2,
    (C10_amended.2 [] jdC10w 7 (by decide)).1⟩

/-- C3 (code bug): the runner's row loop has no per-row exception handler,
so when verifying the first row raises, the batch aborts: no risky row with
an unclassified reason is recorded, the remaining rows are not processed,
and the runner writes no terminal status (first two conjuncts); only a
batch with no raising row runs to completion (third conjunct). -/
theorem C3_batch_abort :
    runRows verifyBoom ["boom@example.com", "good@example.com"] [] =
      { results := [], finalStatus := none } ∧
    runRows verifyBoom ["good@example.com", "boom@example.com", "last@example.com"] [] =
      { results := [("good@example.com", ⟨"valid", "smtp_ok", 100, []⟩)],
        finalStatus := none } ∧
    runRows verifyBoom ["good@example.com", "last@example.com"] [] =
      { results := [("good@example.com", ⟨"valid", "smtp_ok", 100, []⟩),
                    ("last@example.com", ⟨"valid", "smtp_ok", 100, []⟩)],
        finalStatus := some "completed" } := by
  decide

/-- C9 (confirmed): in every state reachable by any interleaving of
verifying threads — acquisition ordered global-first then per-domain, both
slots released on every exit path including the abort transition — at most
G SMTP probe sessions are in flight process-wide and at most P against any
single (lower-cased) domain key. -/
theorem C9_concurrency_caps {G P n : Nat} {s : SmtpConcState} (h : SmtpReachable G P n s) :
    s.threads.countP inAnySection ≤ G ∧
    ∀ k, s.threads.countP (inSectionAt k) ≤ P := by
  obtain ⟨hg, hd⟩ := smtpInv_reachable h
  constructor
  · have hmono : s.threads.countP inAnySection ≤ s.threads.countP holdsGlobal :=
      List.countP_mono_left fun x _ hx => by
        cases x <;> simp_all [inAnySection, holdsGlobal]
    omega
  · intro k
    have := hd k
    omega

/-- C9 witness: a concrete two-step interleaving (one thread acquires the
global then the domain slot) stays within caps G = 2, P = 1. -/
theorem C9_witness :
    ([] ++ Phase.inSection "X.example" :: [Phase.idle, Phase.idle]).countP inAnySection ≤ 2 ∧
    ([] ++ Phase.inSection "X.example" :: [Phase.idle, Phase.idle]).countP
      (inSectionAt (strLower "X.example")) ≤ 1 := by
  have hstep1 : SmtpStep 1 (SmtpInit 2 3)
      ⟨1, (SmtpInit 2 3).domainAvail,
        [] ++ Phase.holdGlobal "X.example" :: [Phase.idle, Phase.idle]⟩ :=
    SmtpStep.acquireGlobal (SmtpInit 2 3) [] [Phase.idle, Phase.idle] "X.example" 1 rfl rfl
  have hstep2 : SmtpStep 1
      ⟨1, (SmtpInit 2 3).domainAvail,
        [] ++ Phase.holdGlobal "X.example" :: [Phase.idle, Phase.idle]⟩
      ⟨1, fun k => if k = strLower "X.example" then some 0
            else (SmtpInit 2 3).domainAvail k,
        [] ++ Phase.inSection "X.example" :: [Phase.idle, Phase.idle]⟩ :=
    SmtpStep.acquireDomain _ [] [Phase.idle, Phase.idle] "X.example" 0 rfl rfl
  have hreach := SmtpReachable.step (SmtpReachable.step SmtpReachable.init hstep1) hstep2
  have hcaps := C9_concurrency_caps hreach
  exact ⟨hcaps.1, hcaps.2 (strLower "X.example")⟩

/-- C8 (confirmed): for both the MX cache and the catch-all cache, after
set(d, v) at time t0, get(d) under any letter case of d returns v while the
elapsed time is at most the TTL; once more than the TTL has elapsed, get
returns absent and itself evicts the entry. -/
theorem C8_cache_ttl :
    (∀ (c : DNSCache) (d d2 : String) (v : List String) (t0 t : Int),
      strLower d2 = strLower d →
      (t - t0 ≤ c.ttl_seconds →
        (c.set_mx d v t0).get_mx d2 t = (some v, c.set_mx d v t0)) ∧
      (t - t0 > c.ttl_seconds →
        ((c.set_mx d v t0).get_mx d2 t).1 = none ∧
        ((c.set_mx d v t0).get_mx d2 t).2.cache (strLower d) = none)) ∧
    (∀ (c : CatchAllCache) (d d2 : String) (b : Bool) (t0 t : Int),
      strLower d2 = strLower d →
      (t - t0 ≤ c.ttl_seconds →
        (c.set d b t0).get d2 t = (some b, c.set d b t0)) ∧
      (t - t0 > c.ttl_seconds →
        ((c.set d b t0).get d2 t).1 = none ∧
        ((c.set d b t0).get d2 t).2.cache (strLower d) = none)) := by
  constructor
  · intro c d d2 v t0 t hl
    constructor
    · intro hle
      rw [DNSCache.get_mx]
      dsimp only [DNSCache.set_mx]
      rw [hl, if_pos rfl]
      dsimp only
      rw [if_neg (by omega)]
    · intro hgt
      rw [DNSCache.get_mx]
      dsimp only [DNSCache.set_mx]
      rw [hl, if_pos rfl]
      dsimp only
      rw [if_pos (by omega)]
      exact ⟨rfl, by dsimp only; rw [if_pos rfl]⟩
  · intro c d d2 b t0 t hl
    constructor
    · intro hle
      rw [CatchAllCache.get]
      dsimp only [CatchAllCache.set]
      rw [hl, if_pos rfl]
      dsimp only
      rw [if_neg (by omega)]
    · intro hgt
      rw [CatchAllCache.get]
      dsimp only [CatchAllCache.set]
      rw [hl, if_pos rfl]
      dsimp only
      rw [if_pos (by omega)]
      exact ⟨rfl, by dsimp only; rw [if_pos rfl]⟩

/-- C8 witness: concrete instances on both caches, both sides of the TTL
boundary, with differing letter case. -/
theorem C8_witness :
    (DNSCache.set_mx (DNSCache.empty 30) "Mail.Example.COM" ["mx1.example"] 0).get_mx
      "mail.example.com" 1800 =
      (some ["mx1.example"], DNSCache.set_mx (DNSCache.empty 30) "Mail.Example.COM"
        ["mx1.example"] 0) ∧
    ((DNSCache.set_mx (DNSCache.empty 30) "Mail.Example.COM" ["mx1.example"] 0).get_mx
      "mail.example.com" 1801).1 = none ∧
    (CatchAllCache.set (CatchAllCache.empty 1440) "Corp.Example" true 0).get
      "corp.example" 86400 =
      (some true, CatchAllCache.set (CatchAllCache.empty 1440) "Corp.Example" true 0) ∧
    ((CatchAllCache.set (CatchAllCache.empty 1440) "Corp.Example" true 0).get
      "corp.example" 86401).2.cache (strLower "Corp.Example") = none := by
  refine ⟨?_, ?_, ?_, ?_⟩
  · exact (C8_cache_ttl.1 (DNSCache.empty 30) "Mail.Example.COM" "mail.example.com"
      ["mx1.example"] 0 1800 (by decide)).1 (by decide)
  · exact ((C8_cache_ttl.1 (DNSCache.empty 30) "Mail.Example.COM" "mail.example.com"
      ["mx1.example"] 0 1801 (by decide)).2 (by decide)).1
  · exact (C8_cache_ttl.2 (CatchAllCache.empty 1440) "Corp.Example" "corp.example"
      true 0 86400 (by decide)).1 (by decide)
  · exact ((C8_cache_ttl.2 (CatchAllCache.empty 1440) "Corp.Example" "corp.example"
      true 0 86401 (by decide)).2 (by decide)).2

/-- C5 witness: with retries = 2 and a transient 450 followed by a 250,
exactly min(retries + 1, 2) = 2 attempts are made. -/
theorem C5_witness :
    isRetryableResult (attC5 1).1 = false ∧
    (smtp_check_with_retry 2 attC5).2 = min (2 + 1) (1 + 1) := by
  refine ⟨by decide, ?_⟩
  exact (C5_retry_policy 2 attC5).2.2.1 1 (by decide) (by decide)

/-- C1 witness: concrete instance of the amended theorem. -/
theorem C1_witness :
    (check_email envC1 (DNSCache.empty 30) 0 "carol@corp.example").2.2.catch_all_probes = 1 ∧
    (check_email envC1 (DNSCache.empty 30) 0 "carol@corp.example").1.reason =
      "domain_accepts_all" ∧
    (check_email envC1 (DNSCache.empty 30) 0 "carol@corp.example").2.2.rcpt_probe_attempts
      = 0 := by
  have h := C1_amended envC1 (DNSCache.empty 30) 0 "carol@corp.example"
    ["mx.corp.example"] (by decide) (by decide) (by decide) (by decide) (by decide)
  have h2 := h.2 rfl
  exact ⟨h.1, h2.2.1, h2.2.2⟩

/-- C6 witness: concrete instance. -/
theorem C6_witness :
    (check_email envC6 (DNSCache.empty 30) 0 "dave@nomx.example").1 =
      ⟨"invalid", "no_mx", 0, ["no_mail_server"]⟩ ∧
    (check_email envC6 (DNSCache.empty 30) 0 "dave@nomx.example").2.2.dns_queries = 1 ∧
    (check_email envC6 (check_email envC6 (DNSCache.empty 30) 0 "dave@nomx.example").2.1
      900 "erin@nomx.example").2.2.dns_queries = 0 := by
  have h := (C6_mx_negative_caching envC6 (DNSCache.empty 30) 0 "dave@nomx.example" "nomx.example"
    (by decide) (by decide) (by decide) (by decide)).1 (by decide) (Or.inl rfl)
  refine ⟨h.1, h.2.2.1, ?_⟩
  exact (h.2.2.2 "erin@nomx.example" 900 (by decide) (by decide) (by decide) (by decide)).2

/-- C4 counterexample: for reason mock_risky the claim's deduction table
matches no condition, predicting (100, []), but the source deducts 40 with
tag unverifiable_domain, returning (60, [unverifiable_domain]). -/
theorem C4_counterexample :
    calculate_score_and_risks "bob@company.com" "risky" "mock_risky" =
      (60, ["unverifiable_domain"]) ∧
    claimScore "mock_risky" (emailDomain "bob@company.com") = (100, []) ∧
    calculate_score_and_risks "bob@company.com" "risky" "mock_risky" ≠
      claimScore "mock_risky" (emailDomain "bob@company.com") := by
  decide

/-- C4 (corrected, amended): hard-zero reasons (bad_syntax, empty_email,
no_mx, no_mx_dns_timeout, any smtp_reject prefix, disposable_domain) score
exactly 0 with a single corresponding tag; otherwise the score is 100 minus
the sum of the deductions of every matched condition — role_based 25,
smtp_timeout/timeout_after_retry 25, connection refused/reset 30, temporary
4xx-derived failure 25, other generic SMTP error 30, domain_accepts_all 15,
mock_risky 40, free-mail provider domain 5 — clamped to [0,100], with the
matched tags in that order; in particular support@company.com with reason
role_based scores 75 with risk factors [role_based_email]. -/
theorem C4_amended :
    (∀ email status reason, calculate_score_and_risks email status reason =
      amendedClaimScore reason (emailDomain email)) ∧
    calculate_score_and_risks "support@company.com" "risky" "role_based" =
      (75, ["role_based_email"]) := by
  constructor
  · intro email status reason
    exact scoring_matches_amended_table email status reason
  · decide
